import Mathlib

/-!
Verification of the BobaScript interpreter core: a shallow embedding of the
chunk/value data model (src/bobascript/src/chunk.rs, src/bobascript/src/value.rs,
src/crates/bobascript/src/value.rs), the stack virtual machine
(src/bobascript/src/vm.rs) and the AST bytecode compiler
(src/crates/bobascript/src/compiler/*), together with theorems settling the
frozen claims about them.

Modelling conventions:
* `f64` numbers are modelled as `ℚ`; `f64::EPSILON = 2^-52` is the exact
  rational `eps`.  `usize`/`u8` indices are `Nat`; `i32` scope depths are `Int`
  (the code uses `-1` as the uninitialised sentinel).
* `Rc<RefCell<Upvalue>>` cells are modelled as integer keys into a registry
  owned by the VM state (the slot-map design described in the repository's own
  design notes); `Rc<RefCell<NativeFunction>>` is a key into a host table.
* Rust panics (`unwrap` on `None`/`Err`, index out of bounds, `usize`
  underflow, `todo!`/`unreachable!`) are modelled as an explicit `crashed`
  outcome, distinct from surfaced `RuntimeError`s.
* `Vec<Value>` payloads inside values (`Box<[Value]>` tuples, `HashMap`
  records, constant pools) are modelled by the mutually inductive
  `ValueList`/`RecordFields` so that every function on values is structurally
  recursive and computable; `ValueList.ofList`/`toList` convert.
* The VM value stack is a `List Value` whose head is the TOP of the stack;
  absolute (bottom-based) indices used by `slots_start` are translated by
  `stackGetAbs`/`stackSetAbs`.
-/

/-- Jump direction operand, from chunk.rs. -/
inductive JumpDirection where
  | forwards
  | backwards
deriving DecidableEq, Repr

/-- Compile-time upvalue descriptor, from chunk.rs (`enum Upvalue`):
`Local(usize)` captures a slot of the enclosing frame, `Upvalue(usize)` shares
an upvalue of the enclosing closure. -/
inductive UvDesc where
  | localSlot (idx : Nat)
  | enclosingUpvalue (idx : Nat)
deriving DecidableEq, Repr

/-- The instruction set, from chunk.rs (`enum OpCode`).  All operands are
embedded in the variant.  (`otrue`/`ofalse`/`nott`/`ret` stand for the Rust
variants `True`/`False`/`Not`/`Return`, which are keywords here.) -/
inductive OpCode where
  | tuple (length : Nat)
  | constant (idx : Nat)
  | otrue
  | ofalse
  | pop
  | popN (count : Nat)
  | defineGlobal (idx : Nat)
  | getLocal (idx : Nat)
  | setLocal (idx : Nat)
  | getGlobal (idx : Nat)
  | setGlobal (idx : Nat)
  | getUpvalue (idx : Nat)
  | setUpvalue (idx : Nat)
  | equal
  | greaterThan
  | lessThan
  | add
  | subtract
  | multiply
  | divide
  | exponent
  | nott
  | negate
  | log
  | jump (direction : JumpDirection) (offset : Nat)
  | jumpIfFalse (offset : Nat)
  | call (args : Nat)
  | closure (idx : Nat) (upvalues : List UvDesc)
  | closeUpvalue
  | ret
deriving DecidableEq, Repr

mutual
/-- The tagged value universe, from value.rs (`enum Value`).  The `Record`
variant exists in src/crates/bobascript/src/value.rs (the revision that also
defines `Value::equal`); `NativeFunction` holds a key into the VM's host
table instead of an `Rc`. -/
inductive Value where
  | tuple (vs : ValueList)
  | record (fields : RecordFields)
  | number (n : ℚ)
  | boolean (b : Bool)
  | string (s : String)
  | function (f : Func)
  | nativeFunction (key : Nat)
  | closure (c : Closure)

/-- A sequence of values (`Box<[Value]>` / `Vec<Value>`). -/
inductive ValueList where
  | nil
  | cons (hd : Value) (tl : ValueList)

/-- Record fields (`HashMap<String, Value>`, in insertion order). -/
inductive RecordFields where
  | nil
  | cons (key : String) (val : Value) (tl : RecordFields)

/-- `Function { arity, chunk, name }` from value.rs. -/
inductive Func where
  | mk (arity : Nat) (chunk : Chunk) (name : String)

/-- `Chunk { code, constants }` from chunk.rs (line numbers, dropped in the
crates revision, are omitted). -/
inductive Chunk where
  | mk (code : List OpCode) (constants : ValueList)

/-- `Closure { function, upvalues }` from value.rs; the upvalue cells are
keys into the VM's registry. -/
inductive Closure where
  | mk (function : Func) (upvalues : List Nat)
end

/-- Arity of a function. -/
def Func.arity : Func → Nat
  | .mk a _ _ => a

/-- Chunk of a function. -/
def Func.chunk : Func → Chunk
  | .mk _ c _ => c

/-- Name of a function. -/
def Func.name : Func → String
  | .mk _ _ n => n

/-- Code list of a chunk. -/
def Chunk.code : Chunk → List OpCode
  | .mk c _ => c

/-- Constant pool of a chunk. -/
def Chunk.constants : Chunk → ValueList
  | .mk _ k => k

/-- Function of a closure. -/
def Closure.function : Closure → Func
  | .mk f _ => f

/-- Upvalue keys of a closure. -/
def Closure.upvalues : Closure → List Nat
  | .mk _ u => u

/-- Build a `ValueList` from a `List Value`. -/
def ValueList.ofList : List Value → ValueList
  | [] => .nil
  | v :: vs => .cons v (ValueList.ofList vs)

/-- View a `ValueList` as a `List Value`. -/
def ValueList.toList : ValueList → List Value
  | .nil => []
  | .cons v vs => v :: ValueList.toList vs

/-- Length of a `ValueList`. -/
def ValueList.length : ValueList → Nat
  | .nil => 0
  | .cons _ vs => ValueList.length vs + 1

/-- Indexing into a `ValueList` (`constants[idx]`). -/
def ValueList.get? : ValueList → Nat → Option Value
  | .nil, _ => none
  | .cons v _, 0 => some v
  | .cons _ vs, n + 1 => ValueList.get? vs n

/-- The unit value: the empty tuple (`Value::get_unit`). -/
def Value.getUnit : Value := Value.tuple .nil

/-- The runtime error taxonomy, from vm.rs (`enum RuntimeError`). -/
inductive RuntimeError where
  | unknown
  | typeError (expected : String) (found : Value)
  | operationNotSupported
  | undefinedVariable (name : String)
  | invalidCallSignature
  | incorrectParameterCount (expected got : Nat)
  | stackOverflow

/-- `f64::EPSILON`, the exact rational `2 ^ (-52)`. -/
def eps : ℚ := 1 / 2 ^ 52

mutual
/-- Structural equality from src/crates/bobascript/src/value.rs
(`Value::equal`): numbers within `eps`, booleans and strings structurally,
tuples by length and then pointwise, every other combination `false`. -/
def Value.equal : Value → Value → Bool
  | .number a, .number b => decide (|a - b| < eps)
  | .boolean a, .boolean b => a == b
  | .string a, .string b => a == b
  | .tuple a, .tuple b => a.length == b.length && ValueList.equalElems a b
  | _, _ => false

/-- The element loop of `Value::equal` on tuples. -/
def ValueList.equalElems : ValueList → ValueList → Bool
  | .nil, .nil => true
  | .cons x xs, .cons y ys => Value.equal x y && ValueList.equalElems xs ys
  | _, _ => false
end

mutual
/-- Values built only from numbers, booleans, strings and tuples: the kinds
on which `Value::equal` acts structurally. -/
def Value.isPlain : Value → Bool
  | .number _ => true
  | .boolean _ => true
  | .string _ => true
  | .tuple vs => ValueList.allPlain vs
  | _ => false

/-- All elements of the list are plain. -/
def ValueList.allPlain : ValueList → Bool
  | .nil => true
  | .cons v vs => Value.isPlain v && ValueList.allPlain vs
end

/-- Wraps a rendered value the way `impl Display for Value` does: string
values get surrounding quotes, everything else is passed through. -/
def displayWrap : Value → String → String
  | .string _, s => "\"" ++ s ++ "\""
  | _, s => s

mutual
/-- The canonical string conversion, from
`impl TryInto<String> for Value` in src/crates/bobascript/src/value.rs (every
arm returns `Ok`, so the conversion is total).  `f64` display is modelled as
rational display. -/
def Value.toStr : Value → String
  | .tuple vs => "#[" ++ ValueList.displayJoin vs ++ "]"
  | .record fs => "#\x7b" ++ RecordFields.displayJoin fs ++ "\x7d"
  | .number n => toString n
  | .boolean b => toString b
  | .string s => s
  | .function f => if f.name.isEmpty then "<fn " ++ f.name ++ ">" else "<script>"
  | .nativeFunction _ => "<native fn>"
  | .closure c =>
      if c.function.name.isEmpty then "<fn " ++ c.function.name ++ ">"
      else "<script>"

/-- Comma-joined `Display` rendering of tuple elements. -/
def ValueList.displayJoin : ValueList → String
  | .nil => ""
  | .cons v .nil => displayWrap v (Value.toStr v)
  | .cons v tl => displayWrap v (Value.toStr v) ++ ", " ++ ValueList.displayJoin tl

/-- Comma-joined rendering of record fields (`"key": value`). -/
def RecordFields.displayJoin : RecordFields → String
  | .nil => ""
  | .cons k v .nil => "\"" ++ k ++ "\": " ++ displayWrap v (Value.toStr v)
  | .cons k v tl =>
      "\"" ++ k ++ "\": " ++ displayWrap v (Value.toStr v) ++ ", "
        ++ RecordFields.displayJoin tl
end

/-- Canonical string conversion of a value (`TryInto<String>`, which never
fails). -/
def valueToString (v : Value) : String := Value.toStr v

/-- `TryInto<f64> for Value`: numbers convert, everything else is a
`TypeError` expecting "number". -/
def valueToNumber : Value → Except RuntimeError ℚ
  | .number n => .ok n
  | v => .error (.typeError "number" v)

/-- `TryInto<bool> for Value`: booleans convert, everything else is a
`TypeError` expecting "boolean". -/
def valueToBool : Value → Except RuntimeError Bool
  | .boolean b => .ok b
  | v => .error (.typeError "boolean" v)

/-! ## The virtual machine (src/bobascript/src/vm.rs) -/

/-- A runtime upvalue cell (`enum Upvalue` in value.rs): `Open` holds a live
stack-slot index, `Closed` a relocated value. -/
inductive Upvalue where
  | opened (idx : Nat)
  | closed (v : Value)

/-- `struct CallFrame { closure, ip, slots_start }`. -/
structure CallFrame where
  closure : Closure
  ip : Nat
  slotsStart : Nat

/-- The VM state (`struct VM`), minus the log handler (logging is a pure
side effect).  `frames` and `stack` have their TOP at the head; `upvalues`
is the registry of shared cells, addressed by key; `natives` is the host
table behind `Value.nativeFunction` keys. -/
structure VMState where
  frames : List CallFrame
  stack : List Value
  globals : List (String × Value)
  upvalues : List Upvalue
  natives : Nat → List Value → Except RuntimeError Value

/-- Reads `stack[i]` where `i` counts from the BOTTOM (the indexing used via
`slots_start`); the stack list itself has its top at the head. -/
def stackGetAbs (stack : List Value) (i : Nat) : Option Value :=
  if i < stack.length then stack.get? (stack.length - 1 - i) else none

/-- Writes `stack[i] = v` (bottom-based index); `none` models the Rust
out-of-bounds panic. -/
def stackSetAbs (stack : List Value) (i : Nat) (v : Value) : Option (List Value) :=
  if i < stack.length then some (stack.set (stack.length - 1 - i) v) else none

/-- `HashMap::get` on the globals table. -/
def globalsLookup : List (String × Value) → String → Option Value
  | [], _ => none
  | (k, v) :: rest, n => if k == n then some v else globalsLookup rest n

/-- `HashMap::insert` on the globals table (replaces an existing binding,
otherwise appends). -/
def globalsInsert : List (String × Value) → String → Value → List (String × Value)
  | [], n, v => [(n, v)]
  | (k, w) :: rest, n, v =>
      if k == n then (k, v) :: rest else (k, w) :: globalsInsert rest n v

/-- `HashMap::get_mut` followed by assignment: `none` when the name is
unbound. -/
def globalsUpdate : List (String × Value) → String → Value → Option (List (String × Value))
  | [], _, _ => none
  | (k, w) :: rest, n, v =>
      if k == n then some ((k, v) :: rest)
      else (globalsUpdate rest n v).map (fun g => (k, w) :: g)

/-- `VM::find_upvalue`: the first registry cell that is `Open` at `idx`. -/
def findUpvalue (registry : List Upvalue) (idx : Nat) : Option Nat :=
  registry.findIdx? (fun u =>
    match u with
    | .opened i => i == idx
    | .closed _ => false)

/-- `VM::capture_upvalue`: reuse the registered open cell for `idx`, or
register a fresh one; returns its key and the new registry. -/
def captureUpvalue (registry : List Upvalue) (idx : Nat) : Nat × List Upvalue :=
  match findUpvalue registry idx with
  | some key => (key, registry)
  | none => (registry.length, registry ++ [.opened idx])

/-- One cell of `VM::close_upvalues`: an open cell at `idx ≥ lastIdx` is
replaced by `Closed(stack[idx])`; `none` models the indexing panic. -/
def closeCell (stack : List Value) (lastIdx : Nat) : Upvalue → Option Upvalue
  | .opened i =>
      if lastIdx ≤ i then (stackGetAbs stack i).map Upvalue.closed
      else some (.opened i)
  | .closed v => some (.closed v)

/-- `VM::close_upvalues(last_idx)` over the whole registry. -/
def closeUpvalues (stack : List Value) (lastIdx : Nat) (registry : List Upvalue) :
    Option (List Upvalue) :=
  registry.mapM (closeCell stack lastIdx)

/-- `VM::call`: arity mismatch fails with `IncorrectParameterCount`, a full
frame stack (64 frames) fails with `StackOverflow`, otherwise a frame with
`slots_start = stack.len() - 1 - arg_count` is pushed — where that usize
subtraction UNDERFLOW-PANICS (modelled as `none`) whenever fewer than
`arg_count + 1` values are on the stack. -/
def VMState.call (s : VMState) (c : Closure) (argCount : Nat) :
    Option (Except RuntimeError VMState) :=
  if argCount ≠ c.function.arity then
    some (.error (.incorrectParameterCount c.function.arity argCount))
  else if s.frames.length = 64 then some (.error .stackOverflow)
  else if argCount + 1 ≤ s.stack.length then
    some (.ok { s with
      frames := ⟨c, 0, s.stack.length - 1 - argCount⟩ :: s.frames })
  else none

/-- The slice `&self.stack[arg_start..]` passed to a native function by
`VM::call_value`, in bottom-to-top order: with
`arg_start = stack.len() - 1 - arg_count` it contains `arg_count + 1` values
and starts with the CALLEE. -/
def nativeArgsView (s : VMState) (argCount : Nat) : List Value :=
  (s.stack.take (argCount + 1)).reverse

/-- `VM::call_value`: closures are called; native functions are invoked on
`nativeArgsView` after which only the `arg_count` arguments are popped (the
host's return value is discarded by the `?;` statement and the callee is left
on the stack); anything else is `InvalidCallSignature`.  The native arm's
`arg_start = stack.len() - 1 - arg_count` also underflow-panics (`none`) on
fewer than `arg_count + 1` stack values. -/
def VMState.callValue (s : VMState) (callee : Value) (argCount : Nat) :
    Option (Except RuntimeError VMState) :=
  match callee with
  | .closure c => s.call c argCount
  | .nativeFunction key =>
      if argCount + 1 ≤ s.stack.length then
        match s.natives key (nativeArgsView s argCount) with
        | .error e => some (.error e)
        | .ok _ => some (.ok { s with stack := s.stack.drop argCount })
      else none
  | _ => some (.error .invalidCallSignature)

/-- Result of one dispatch of `VM::run`'s loop: continue, halt with the
final value (last `Return`), surface a `RuntimeError`, or hit a Rust panic
(`crashed`). -/
inductive StepRes where
  | next (s : VMState)
  | halt (v : Value) (s : VMState)
  | err (e : RuntimeError) (s : VMState)
  | crashed

/-- `peek_and_pop_as::<f64>`: peeks (erring with `Unknown` on an empty stack
and `TypeError` on a non-number, in both cases without popping) and pops on
success. -/
def peekAndPopAsNumber (stack : List Value) :
    Except RuntimeError ℚ × List Value :=
  match stack with
  | [] => (.error .unknown, [])
  | v :: rest =>
      match valueToNumber v with
      | .ok n => (.ok n, rest)
      | .error e => (.error e, v :: rest)

/-- Partial model of `f64::powf`, defined on natural exponents (no claim
exercises `Exponent`). -/
def powModel (a b : ℚ) : ℚ :=
  if b.den = 1 ∧ 0 ≤ b.num then a ^ b.num.toNat else 0

/-- `b.round() as usize`: rounding then saturating to `Nat` (for every
rational this agrees with Rust's round-half-away-from-zero composed with the
saturating cast). -/
def roundToNat (b : ℚ) : Nat := (round b).toNat

/-- String repetition, `repeat(a).take(n).collect()`. -/
def strRepeat (a : String) (n : Nat) : String :=
  String.join (List.replicate n a)

/-- The `binary_op!` macro instantiated at `f64`: evaluates `b` then `a` by
`peek_and_pop_as`, combining errors with `a`'s error taking precedence
(`a.and_then(|a| b.and_then(..))`). -/
def binaryOpNum (s1 : VMState) (push : ℚ → ℚ → Value) : StepRes :=
  let rb := peekAndPopAsNumber s1.stack
  let ra := peekAndPopAsNumber rb.2
  match ra.1, rb.1 with
  | .ok a, .ok b => .next { s1 with stack := push a b :: ra.2 }
  | .error e, _ => .err e { s1 with stack := ra.2 }
  | .ok _, .error e => .err e { s1 with stack := ra.2 }

/-- The upvalue materialisation loop of the `Closure` opcode: a `Local(i)`
descriptor captures slot `slots_start + i` (possibly registering a fresh open
cell), an `Upvalue(i)` descriptor shares the current frame's cell `i` (`none`
models the indexing panic).  Returns the keys in order and the new
registry. -/
def materializeUpvalues (registry : List Upvalue) (slotsStart : Nat)
    (frameUps : List Nat) : List UvDesc → Option (List Nat × List Upvalue)
  | [] => some ([], registry)
  | .localSlot i :: rest =>
      let kr := captureUpvalue registry (slotsStart + i)
      (materializeUpvalues kr.2 slotsStart frameUps rest).map
        (fun p => (kr.1 :: p.1, p.2))
  | .enclosingUpvalue i :: rest =>
      match frameUps.get? i with
      | none => none
      | some key =>
          (materializeUpvalues registry slotsStart frameUps rest).map
            (fun p => (key :: p.1, p.2))

/-- One iteration of `VM::run`: fetch the instruction at the current frame's
`ip`, advance `ip`, dispatch.  Every arm mirrors the corresponding `OpCode`
arm in vm.rs, including which failures are surfaced `RuntimeError`s and which
are panics (`crashed`). -/
def step (s : VMState) : StepRes :=
  match s.frames with
  | [] => .crashed
  | fr :: restFrames =>
    match fr.closure.function.chunk.code.get? fr.ip with
    | none => .crashed
    | some instr =>
      let fr1 : CallFrame := { fr with ip := fr.ip + 1 }
      let s1 : VMState := { s with frames := fr1 :: restFrames }
      match instr with
      | .tuple n =>
          if n ≤ s1.stack.length then
            let tup := Value.tuple (ValueList.ofList ((s1.stack.take n).reverse))
            .next { s1 with stack := tup :: s1.stack.drop n }
          else .crashed
      | .constant idx =>
          match fr1.closure.function.chunk.constants.get? idx with
          | some c => .next { s1 with stack := c :: s1.stack }
          | none => .crashed
      | .otrue => .next { s1 with stack := Value.boolean true :: s1.stack }
      | .ofalse => .next { s1 with stack := Value.boolean false :: s1.stack }
      | .pop => .next { s1 with stack := s1.stack.tail }
      | .popN n => .next { s1 with stack := s1.stack.drop n }
      | .defineGlobal idx =>
          match fr1.closure.function.chunk.constants.get? idx with
          | none => .crashed
          | some g =>
            match s1.stack with
            | [] => .crashed
            | top :: rest =>
                .next { s1 with
                  globals := globalsInsert s1.globals (valueToString g) top,
                  stack := rest }
      | .getLocal idx =>
          match stackGetAbs s1.stack (fr1.slotsStart + idx) with
          | some v => .next { s1 with stack := v :: s1.stack }
          | none => .crashed
      | .setLocal idx =>
          match s1.stack with
          | [] => .crashed
          | top :: _ =>
            match stackSetAbs s1.stack (fr1.slotsStart + idx) top with
            | some st => .next { s1 with stack := st }
            | none => .crashed
      | .getGlobal idx =>
          match fr1.closure.function.chunk.constants.get? idx with
          | none => .crashed
          | some g =>
            let name := valueToString g
            match globalsLookup s1.globals name with
            | none => .err (.undefinedVariable name) s1
            | some v => .next { s1 with stack := v :: s1.stack }
      | .setGlobal idx =>
          match fr1.closure.function.chunk.constants.get? idx with
          | none => .crashed
          | some g =>
            let name := valueToString g
            match s1.stack with
            | [] => .crashed
            | top :: _ =>
              match globalsUpdate s1.globals name top with
              | none => .err (.undefinedVariable name) s1
              | some gl => .next { s1 with globals := gl }
      | .getUpvalue idx =>
          match fr1.closure.upvalues.get? idx with
          | none => .crashed
          | some key =>
            match s1.upvalues.get? key with
            | none => .crashed
            | some (.opened i) =>
                match stackGetAbs s1.stack i with
                | some v => .next { s1 with stack := v :: s1.stack }
                | none => .crashed
            | some (.closed v) => .next { s1 with stack := v :: s1.stack }
      | .setUpvalue idx =>
          match s1.stack with
          | [] => .crashed
          | newv :: _ =>
            match fr1.closure.upvalues.get? idx with
            | none => .crashed
            | some key =>
              match s1.upvalues.get? key with
              | none => .crashed
              | some (.opened i) =>
                  match stackSetAbs s1.stack i newv with
                  | some st => .next { s1 with stack := st }
                  | none => .crashed
              | some (.closed _) =>
                  .next { s1 with upvalues := s1.upvalues.set key (.closed newv) }
      | .equal =>
          match s1.stack with
          | [] => .err .unknown s1
          | [_] => .err .unknown { s1 with stack := [] }
          | b :: a :: rest =>
              .next { s1 with stack := Value.boolean (Value.equal a b) :: rest }
      | .greaterThan => binaryOpNum s1 (fun a b => .boolean (decide (a > b)))
      | .lessThan => binaryOpNum s1 (fun a b => .boolean (decide (a < b)))
      | .add =>
          match s1.stack with
          | [] => .err .unknown s1
          | [_] => .err .unknown s1
          | b :: a :: rest =>
            match a, b with
            | .number na, .number nb =>
                .next { s1 with stack := Value.number (na + nb) :: rest }
            | .string _, .string _ | .number _, .string _ | .string _, .number _ =>
                let sv := Value.string (valueToString a ++ valueToString b)
                .next { s1 with stack := sv :: rest }
            | _, _ => .err .operationNotSupported s1
      | .subtract => binaryOpNum s1 (fun a b => .number (a - b))
      | .multiply =>
          match s1.stack with
          | [] => .err .unknown s1
          | [_] => .err .unknown s1
          | b :: a :: rest =>
            match a, b with
            | .number na, .number nb =>
                .next { s1 with stack := Value.number (na * nb) :: rest }
            | .string sa, .number nb =>
                let sv := Value.string (strRepeat sa (roundToNat nb))
                .next { s1 with stack := sv :: rest }
            | _, _ => .err .operationNotSupported s1
      | .divide => binaryOpNum s1 (fun a b => .number (a / b))
      | .exponent => binaryOpNum s1 (fun a b => .number (powModel a b))
      | .nott =>
          match s1.stack with
          | [] => .err .unknown s1
          | v :: rest =>
            match valueToBool v with
            | .error e => .err e s1
            | .ok bv => .next { s1 with stack := Value.boolean (!bv) :: rest }
      | .negate =>
          match s1.stack with
          | [] => .err .unknown s1
          | v :: rest =>
            match valueToNumber v with
            | .error e => .err e s1
            | .ok n => .next { s1 with stack := Value.number (-n) :: rest }
      | .log =>
          match s1.stack with
          | [] => .crashed
          | _ => .next s1
      | .jump dir off =>
          match dir with
          | .forwards =>
              .next { s1 with frames := { fr1 with ip := fr1.ip + off } :: restFrames }
          | .backwards =>
              if off ≤ fr1.ip then
                .next { s1 with frames := { fr1 with ip := fr1.ip - off } :: restFrames }
              else .crashed
      | .jumpIfFalse off =>
          match s1.stack with
          | [] => .crashed
          | v :: _ =>
            match v with
            | .boolean c =>
                if c then .next s1
                else .next { s1 with
                  frames := { fr1 with ip := fr1.ip + off } :: restFrames }
            | _ => .crashed
      | .call args =>
          match s1.stack.get? args with
          | none => .crashed
          | some callee =>
            match s1.callValue callee args with
            | none => .crashed
            | some (.ok s2) => .next s2
            | some (.error e) => .err e s1
      | .closure idx ups =>
          match fr1.closure.function.chunk.constants.get? idx with
          | none => .crashed
          | some cv =>
            let fv : Option Func :=
              match cv with
              | .function f => some f
              | .closure c => some c.function
              | _ => none
            match fv with
            | none => .crashed
            | some f =>
              match materializeUpvalues s1.upvalues fr1.slotsStart
                  fr1.closure.upvalues ups with
              | none => .crashed
              | some kr =>
                  .next { s1 with
                    upvalues := kr.2,
                    stack := Value.closure ⟨f, kr.1⟩ :: s1.stack }
      | .closeUpvalue =>
          match s1.stack with
          | [] => .crashed
          | _ =>
            match closeUpvalues s1.stack (s1.stack.length - 1) s1.upvalues with
            | none => .crashed
            | some reg =>
                .next { s1 with upvalues := reg, stack := s1.stack.tail }
      | .ret =>
          let popped : Value × List Value :=
            match s1.stack with
            | [] => (Value.getUnit, [])
            | v :: rest => (v, rest)
          match closeUpvalues popped.2 fr1.slotsStart s1.upvalues with
          | none => .crashed
          | some reg =>
            match restFrames with
            | [] =>
                .halt popped.1
                  { s1 with frames := [], stack := popped.2.tail, upvalues := reg }
            | _ =>
                .next { s1 with
                  frames := restFrames,
                  stack := popped.1 :: popped.2.drop (popped.2.length - fr1.slotsStart),
                  upvalues := reg }

/-- Result of `VM::run`: final value, surfaced runtime error (with the VM
state at that moment), Rust panic, or out of fuel. -/
inductive RunRes where
  | ok (v : Value) (s : VMState)
  | err (e : RuntimeError) (s : VMState)
  | crashed
  | fuelOut (s : VMState)

/-- The `VM::run` dispatch loop, with fuel to make it total. -/
def runFuel : Nat → VMState → RunRes
  | 0, s => .fuelOut s
  | n + 1, s =>
    match step s with
    | .next s' => runFuel n s'
    | .halt v s' => .ok v s'
    | .err e s' => .err e s'
    | .crashed => .crashed

/-- The stack dance at the top of `VM::interpret`: push the `Function`
value, pop it, push the wrapping zero-upvalue `Closure`. -/
def interpPush (s : VMState) (f : Func) : VMState :=
  let s1 : VMState := { s with stack := Value.function f :: s.stack }
  let s2 : VMState := { s1 with stack := s1.stack.tail }
  { s2 with stack := Value.closure ⟨f, []⟩ :: s2.stack }

/-- `VM::interpret` after compilation (and identically `VM::evaluate`): push
the function, wrap it in a zero-upvalue closure, swap it on the stack, `call`
with 0 arguments (an error here propagates before anything runs), `run`, and
finally clear the stack and the frames, keeping everything else. -/
def VMState.interpretF (fuel : Nat) (s : VMState) (f : Func) : RunRes :=
  let s3 : VMState := interpPush s f
  match s3.call ⟨f, []⟩ 0 with
  | none => .crashed
  | some (.error e) => .err e s3
  | some (.ok s4) =>
    match runFuel fuel s4 with
    | .ok v s5 => .ok v { s5 with stack := [], frames := [] }
    | .err e s5 => .err e { s5 with stack := [], frames := [] }
    | .crashed => .crashed
    | .fuelOut s5 => .fuelOut s5

/-- Just the observable outcome of a run, without the state. -/
inductive Outcome where
  | ok (v : Value)
  | err (e : RuntimeError)
  | crashed
  | fuelOut

/-- Forget the state component of a `RunRes`. -/
def RunRes.outcome : RunRes → Outcome
  | .ok v _ => .ok v
  | .err e _ => .err e
  | .crashed => .crashed
  | .fuelOut _ => .fuelOut

/-- The VM state carried by a `RunRes`, when there is one. -/
def RunRes.state? : RunRes → Option VMState
  | .ok _ s => some s
  | .err _ s => some s
  | .crashed => none
  | .fuelOut s => some s

/-! ## The AST (src/crates/bobascript-parser/src/ast.rs)

`Vec<Box<Stmt>>`/`Vec<Box<Expr>>`/record maps are modelled by the mutually
inductive `StmtList`/`ExprList`/`REFields` so the compiler is structurally
recursive. -/

/-- `enum UnaryOp`. -/
inductive UnaryOp where
  | negate
  | nott
deriving DecidableEq, Repr

/-- `enum BinaryOp`. -/
inductive BinaryOp where
  | orOp
  | andOp
  | equal
  | notEqual
  | greaterThan
  | greaterEqual
  | lessThan
  | lessEqual
  | add
  | subtract
  | multiply
  | divide
  | exponent
deriving DecidableEq, Repr

/-- `enum AssignOp`. -/
inductive AssignOp where
  | assign
  | addAssign
  | subtractAssign
  | multiplyAssign
  | divideAssign
  | exponentAssign
  | orAssign
  | andAssign
deriving DecidableEq, Repr

mutual
/-- `enum Stmt`. -/
inductive Stmt where
  | function (name : String) (params : List String) (body : Expr)
  | constStmt (name : String) (e : Expr)
  | letStmt (name : String) (e : OExpr)
  | ret (e : OExpr)
  | breakStmt (e : OExpr)
  | expression (e : Expr)

/-- `enum Expr`.  (`Constant::Ident` carries a span in the revision used by
the compiler; the span is dropped.) -/
inductive Expr where
  | error
  | log (e : Expr)
  | block (stmts : StmtList) (tail : OExpr)
  | ifE (cond : Expr) (tBranch : Expr) (fBranch : OExpr)
  | whileE (cond : Expr) (stmts : StmtList)
  | assign (target : Expr) (op : AssignOp) (rhs : Expr)
  | binary (lhs : Expr) (op : BinaryOp) (rhs : Expr)
  | unary (op : UnaryOp) (e : Expr)
  | property (e : Expr) (name : String)
  | index (e : Expr) (i : Expr)
  | call (f : Expr) (args : ExprList)
  | constant (c : Constant)

/-- `Option<Box<Expr>>`, in the mutual family. -/
inductive OExpr where
  | noneE
  | someE (e : Expr)

/-- `enum Const` (string constants still carry their delimiter quotes). -/
inductive Constant where
  | ctrue
  | cfalse
  | ident (name : String)
  | number (n : ℚ)
  | string (s : String)
  | ctuple (es : ExprList)
  | record (fields : REFields)

/-- A statement sequence. -/
inductive StmtList where
  | nil
  | cons (hd : Stmt) (tl : StmtList)

/-- An expression sequence. -/
inductive ExprList where
  | nil
  | cons (hd : Expr) (tl : ExprList)

/-- Record literal fields. -/
inductive REFields where
  | nil
  | cons (key : String) (e : Expr) (tl : REFields)
end

/-- Length of an expression sequence. -/
def ExprList.length : ExprList → Nat
  | .nil => 0
  | .cons _ tl => ExprList.length tl + 1

/-! ## The compiler (src/crates/bobascript/src/compiler/) -/

/-- `enum CompileError` from compiler/mod.rs (the upstream `SyntaxError`
payload is dropped). -/
inductive CompileError where
  | undefinedBehavior (detail : String)
  | syntaxError
  | unexpectedCharacter (line : Nat) (c : Char)
  | unterminatedString (line : Nat)
  | expected (what : String)
  | invalidAssignmentTarget
  | variableAlreadyExists (name : String)
  | variableDoesNotExist (name : String)
  | tooManyArguments
  | topLevelReturn
deriving DecidableEq, Repr

/-- `struct Local { name, depth, is_captured }` (the older revision stores a
`Token`; only its lexeme matters). -/
structure LocalV where
  name : String
  depth : Int
  isCaptured : Bool
deriving DecidableEq, Repr

/-- `enum FunctionType`. -/
inductive FunctionType where
  | topLevel
  | block
  | function
deriving DecidableEq, Repr

/-- `struct CompileContext`.  `locals` and the compiler's `contexts` lists
keep the MOST RECENT element at the head (the end of the Rust `Vec`); a Rust
vector index `i` into `locals` is list position `length - 1 - i`. -/
structure CContext where
  function : Func
  fnType : FunctionType
  locals : List LocalV
  upvalues : List UvDesc
  scopeDepth : Int

/-- `CompileContext::new`: an empty function plus the reserved local with an
empty name at depth 0. -/
def CContext.new (fnType : FunctionType) : CContext :=
  ⟨.mk 0 (.mk [] .nil) "", fnType, [⟨"", 0, false⟩], [], 0⟩

/-- Compiler state: the context stack (head = innermost), the first recorded
error (`Parser::set_error` keeps only the first), and whether a Rust panic
(`todo!`, `unreachable!`, failed `unwrap`, an opcode missing from chunk.rs)
was hit. -/
structure CState where
  contexts : List CContext
  error : Option CompileError
  panicked : Bool

/-- The initial compiler state (`Compiler::new`). -/
def CState.initial : CState := ⟨[CContext.new .topLevel], none, false⟩

/-- Record a Rust panic. -/
def CState.setPanic (st : CState) : CState := { st with panicked := true }

/-- `Parser::set_error`: the first error is kept. -/
def CState.setError (st : CState) (e : CompileError) : CState :=
  match st.error with
  | some _ => st
  | none => { st with error := some e }

/-- Apply a function to the current (innermost) context, panicking when the
context stack is empty (`unwrap`). -/
def CState.modifyCtx (st : CState) (f : CContext → CContext) : CState :=
  match st.contexts with
  | [] => st.setPanic
  | c :: rest => { st with contexts := f c :: rest }

/-- `scope_depth()` of the current context. -/
def CState.scopeDepth (st : CState) : Int :=
  match st.contexts with
  | [] => 0
  | c :: _ => c.scopeDepth

/-- `fn_type` of the current context. -/
def CState.fnType (st : CState) : FunctionType :=
  match st.contexts with
  | [] => .topLevel
  | c :: _ => c.fnType

/-- Replace a function's chunk. -/
def Func.withChunk (f : Func) (c : Chunk) : Func := .mk f.arity c f.name

/-- Append an opcode to a chunk's code. -/
def Chunk.pushOp (c : Chunk) (op : OpCode) : Chunk :=
  .mk (c.code ++ [op]) c.constants

/-- Append a value to a chunk's constant pool. -/
def Chunk.pushConst (c : Chunk) (v : Value) : Chunk :=
  .mk c.code (ValueList.ofList (c.constants.toList ++ [v]))

/-- `Chunk::write`: append an opcode (returning its index is done by
`emitOpcodeIdx`). -/
def CState.emitOpcode (st : CState) (op : OpCode) : CState :=
  st.modifyCtx (fun c =>
    { c with function := c.function.withChunk (c.function.chunk.pushOp op) })

/-- `emit_opcode_idx`: the index the opcode lands at, plus the new state. -/
def CState.emitOpcodeIdx (st : CState) (op : OpCode) : Nat × CState :=
  match st.contexts with
  | [] => (0, st.setPanic)
  | c :: _ => (c.function.chunk.code.length, st.emitOpcode op)

/-- `Chunk::add_constant` via `make_constant`: append, return the index. -/
def CState.makeConstant (st : CState) (v : Value) : Nat × CState :=
  match st.contexts with
  | [] => (0, st.setPanic)
  | c :: rest =>
      let c1 := { c with function := c.function.withChunk (c.function.chunk.pushConst v) }
      (c.function.chunk.constants.length, { st with contexts := c1 :: rest })

/-- `identifier_constant`: intern the name string. -/
def CState.identifierConstant (st : CState) (lexeme : String) : Nat × CState :=
  st.makeConstant (.string lexeme)

/-- `patch_jump` at chunk level: rewrite the placeholder at `offset` with
`current_code_len - 1 - offset`; `none` models the `unreachable!` panic on a
non-jump opcode and the indexing panic. -/
def Chunk.patchJump (c : Chunk) (offset : Nat) : Option Chunk :=
  match c.code.get? offset with
  | some (.jump dir _) =>
      some (.mk (c.code.set offset (.jump dir (c.code.length - 1 - offset))) c.constants)
  | some (.jumpIfFalse _) =>
      some (.mk (c.code.set offset (.jumpIfFalse (c.code.length - 1 - offset))) c.constants)
  | _ => none

/-- `emit_loop` at chunk level: a backwards `Jump` with offset
`current_code_len - start + 1`. -/
def Chunk.emitLoop (c : Chunk) (start : Nat) : Chunk :=
  .mk (c.code ++ [.jump .backwards (c.code.length - start + 1)]) c.constants

/-- `patch_jump` on the compiler state. -/
def CState.patchJump (st : CState) (offset : Nat) : CState :=
  match st.contexts with
  | [] => st.setPanic
  | c :: rest =>
      match c.function.chunk.patchJump offset with
      | none => st.setPanic
      | some ch =>
          { st with contexts :=
            { c with function := .mk c.function.arity ch c.function.name } :: rest }

/-- `emit_loop` on the compiler state. -/
def CState.emitLoop (st : CState) (start : Nat) : CState :=
  st.modifyCtx (fun c =>
    { c with function := c.function.withChunk (c.function.chunk.emitLoop start) })

/-- `begin_scope`. -/
def CState.beginScope (st : CState) : CState :=
  st.modifyCtx (fun c => { c with scopeDepth := c.scopeDepth + 1 })

/-- The scan of `Compiler::declare_variable` in
src/bobascript/src/compiler/compiler.rs (lines 626-653): walk the locals from
the innermost outward (list head first); STOP at the first initialised local
of a shallower scope; report whether a scanned local carries `name`. -/
def scanDeclare (name : String) (depth : Int) : List LocalV → Bool
  | [] => false
  | l :: rest =>
      if l.depth != -1 && decide (l.depth < depth) then false
      else if l.name == name then true
      else scanDeclare name depth rest

/-- `Compiler::declare_variable` (src/bobascript/src/compiler/compiler.rs
626-653) as a pure function of the current context's locals and scope depth:
at depth 0 it does nothing; otherwise it fails with `VariableAlreadyExists`
when the scan finds the name and pushes an uninitialised sentinel local
(`depth = -1`) when it does not. -/
def declareVariable (locals : List LocalV) (scopeDepth : Int) (name : String) :
    Except CompileError (List LocalV) :=
  if scopeDepth > 0 then
    if scanDeclare name scopeDepth locals then
      .error (.variableAlreadyExists name)
    else .ok (⟨name, -1, false⟩ :: locals)
  else .ok locals

/-- `Compiler::declare_variable` of the unfinished crates refactor
(src/crates/bobascript/src/compiler/compiler.rs 616-639): it FILTERS the
locals down to the initialised ones of shallower scopes and looks for the
name there, so it rejects shadowing an initialised outer local and accepts
same-depth duplicates. -/
def declareVariableCrates (locals : List LocalV) (scopeDepth : Int) (name : String) :
    Except CompileError (List LocalV) :=
  if scopeDepth > 0 then
    if (locals.filter (fun l => l.depth != -1 && decide (l.depth < scopeDepth))).any
        (fun l => l.name == name) then
      .error (.variableAlreadyExists name)
    else .ok (⟨name, -1, false⟩ :: locals)
  else .ok locals

/-- `declare_variable` on the compiler state followed by the constant-index
computation of `parse_variable` (compiler.rs 588-597): at depth 0 the name is
interned and its constant index returned, otherwise 0.  (The one-argument
`declare_variable(ident)` called by statements.rs is not in the sources;
this is `parse_variable` minus the token consumption.) -/
def CState.declareVariableC (st : CState) (name : String) : Nat × CState :=
  let st1 :=
    match st.contexts with
    | [] => st.setPanic
    | c :: rest =>
        match declareVariable c.locals c.scopeDepth name with
        | .error e => st.setError e
        | .ok ls => { st with contexts := { c with locals := ls } :: rest }
  if st1.scopeDepth > 0 then (0, st1) else st1.identifierConstant name

/-- `mark_initialized` (crates compiler.rs 599-604): when the scope depth is
non-zero, give the most recent local its real depth. -/
def CState.markInitialized (st : CState) : CState :=
  if st.scopeDepth != 0 then
    st.modifyCtx (fun c =>
      match c.locals with
      | [] => c
      | l :: ls => { c with locals := { l with depth := c.scopeDepth } :: ls })
  else st

/-- `define_variable`: mark initialised inside a scope, emit `DefineGlobal`
at the top level. -/
def CState.defineVariable (st : CState) (global : Nat) : CState :=
  if st.scopeDepth > 0 then st.markInitialized
  else st.emitOpcode (.defineGlobal global)

/-- `CompileContext::resolve_local` (crates compiler/mod.rs 84-98): innermost
matching name wins; a sentinel-depth match is `VariableDoesNotExist`.  The
returned index is a Rust vector index (0 = oldest local). -/
def CContext.resolveLocal (ctx : CContext) (name : String) :
    Except CompileError (Option Nat) :=
  go ctx.locals
where
  /-- Walk from the innermost local (list head). -/
  go : List LocalV → Except CompileError (Option Nat)
    | [] => .ok none
    | l :: rest =>
        if l.name == name then
          if l.depth == -1 then .error (.variableDoesNotExist l.name)
          else .ok (some rest.length)
        else go rest

/-- Replace the context at Rust-back-index `i` (list position `i`, head =
innermost). -/
def CState.setCtxAt (st : CState) (i : Nat) (c : CContext) : CState :=
  { st with contexts := st.contexts.set i c }

/-- `Compiler::resolve_local(name, context_idx)` (crates compiler.rs
645-660): resolve in the `context_idx`-innermost context, turning a
sentinel-depth hit into a recorded error and `None`. -/
def CState.resolveLocalAt (st : CState) (name : String) (contextIdx : Nat) :
    Option Nat × CState :=
  match st.contexts.get? contextIdx with
  | none => (none, st)
  | some ctx =>
      match ctx.resolveLocal name with
      | .ok r => (r, st)
      | .error e => (none, st.setError e)

/-- `Compiler::add_upvalue` (crates compiler.rs 662-685): deduplicate on
`Local` descriptors, else append the descriptor, returning its index. -/
def CState.addUpvalue (st : CState) (index : Nat) (isLocal : Bool)
    (contextIdx : Nat) : Nat × CState :=
  match st.contexts.get? contextIdx with
  | none => (0, st.setPanic)
  | some ctx =>
      match ctx.upvalues.findIdx? (fun u =>
          match u with
          | .localSlot li => li == index
          | .enclosingUpvalue _ => false) with
      | some i => (i, st)
      | none =>
          let desc := if isLocal then UvDesc.localSlot index
            else UvDesc.enclosingUpvalue index
          (ctx.upvalues.length,
            st.setCtxAt contextIdx { ctx with upvalues := ctx.upvalues ++ [desc] })

/-- `Compiler::resolve_upvalue` (crates compiler.rs 687-706): find the name
as a local of the next enclosing context (marking it captured and adding a
`Local` descriptor), else recurse outward adding an `Upvalue` descriptor; the
fuel is the context count, matching the explicit out-of-contexts guard. -/
def CState.resolveUpvalue : Nat → CState → String → Nat → Option Nat × CState
  | 0, st, _, _ => (none, st.setPanic)
  | fuel + 1, st, name, contextIdx =>
    let r1 := st.resolveLocalAt name (contextIdx + 1)
    match r1.1 with
    | some idx =>
        let st2 :=
          match r1.2.contexts.get? (contextIdx + 1) with
          | none => r1.2.setPanic
          | some ctx =>
              let listIdx := ctx.locals.length - 1 - idx
              match ctx.locals.get? listIdx with
              | none => r1.2.setPanic
              | some l =>
                  r1.2.setCtxAt (contextIdx + 1)
                    { ctx with locals := ctx.locals.set listIdx { l with isCaptured := true } }
        let a := st2.addUpvalue idx true contextIdx
        (some a.1, a.2)
    | none =>
        if r1.2.contexts.length ≤ contextIdx + 1 then (none, r1.2)
        else
          let r2 := CState.resolveUpvalue fuel r1.2 name (contextIdx + 1)
          match r2.1 with
          | some idx =>
              let a := r2.2.addUpvalue idx false contextIdx
              (some a.1, a.2)
          | none => (none, r2.2)

/-- Modelled from the spec: the `resolve_variable` helper called by
expressions.rs is not among the sources; its body is the resolution half of
`named_variable` (crates compiler.rs 708-716) and spec section 4.2.1: local,
else upvalue, else global, yielding the matching get/set opcode pair. -/
def CState.resolveVariable (st : CState) (lexeme : String) :
    (OpCode × OpCode) × CState :=
  let r1 := st.resolveLocalAt lexeme 0
  match r1.1 with
  | some idx => ((.getLocal idx, .setLocal idx), r1.2)
  | none =>
      let r2 := CState.resolveUpvalue r1.2.contexts.length r1.2 lexeme 0
      match r2.1 with
      | some idx => ((.getUpvalue idx, .setUpvalue idx), r2.2)
      | none =>
          let r3 := r2.2.identifierConstant lexeme
          ((.getGlobal r3.1, .setGlobal r3.1), r3.2)

/-- Length of the current chunk's code (`current_chunk().code.len()`). -/
def CState.codeLen (st : CState) : Nat :=
  match st.contexts with
  | [] => 0
  | c :: _ => c.function.chunk.code.length

/-- The parameter loop of function compilation: bump the arity (capped at
`u8::MAX`, matching the source's silent saturation), declare and define each
parameter. -/
def paramsC : CState → List String → CState
  | st, [] => st
  | st, p :: rest =>
      let st1 := st.modifyCtx (fun c =>
        if c.function.arity == 255 then c
        else { c with function := .mk (c.function.arity + 1) c.function.chunk c.function.name })
      let r := st1.declareVariableC p
      let st2 := r.2.defineVariable r.1
      paramsC st2 rest

/-- Strip the delimiter quotes off a string constant
(`string[1..len-1]`). -/
def stripQuotes (s : String) : String := (s.drop 1).dropRight 1

mutual
/-- `Compiler::statement` dispatch (crates statements.rs).  `Const` and
`Break` are `todo!()` in the source.  The `Function` arm inlines the
four-argument `Compiler::function` (modelled from the spec, see the comment
on the arm). -/
def stmtC : CState → Stmt → CState
  | st, .function name params body =>
      -- function_stmt: declare, mark initialised, compile the function,
      -- define.  The fresh-context compilation is modelled from spec 4.2:
      -- named Function context, scope opened, parameters declared/defined
      -- (arity capped at u8::MAX), body block compiled inline, Return,
      -- then Closure into the enclosing chunk.
      let r := st.declareVariableC name
      let stA := r.2.markInitialized
      let ctx0 := CContext.new .function
      let st1 := { stA with contexts :=
        { ctx0 with function := .mk 0 (.mk [] .nil) name } :: stA.contexts }
      let st2 := st1.beginScope
      let st3 := paramsC st2 params
      let st4 :=
        match body with
        | .block stmts tail =>
            let stB := stmtsC st3 stmts
            match tail with
            | .someE e => exprC stB e
            | .noneE => stB.emitOpcode (.tuple 0)
        | b => exprC st3 b
      let st5 := st4.emitOpcode .ret
      let st6 :=
        match st5.contexts with
        | [] => st5.setPanic
        | c :: rest =>
            let st6a := { st5 with contexts := rest }
            let rc := st6a.makeConstant (.function c.function)
            rc.2.emitOpcode (.closure rc.1 c.upvalues)
      st6.defineVariable r.1
  | st, .constStmt _ _ => st.setPanic
  | st, .letStmt name oe =>
      let r := st.declareVariableC name
      let st1 :=
        match oe with
        | .someE e => exprC r.2 e
        | .noneE => r.2.emitOpcode (.tuple 0)
      st1.defineVariable r.1
  | st, .ret oe =>
      let st1 := if st.fnType = .topLevel then st.setError .topLevelReturn else st
      let st2 :=
        match oe with
        | .someE e => exprC st1 e
        | .noneE => st1
      st2.emitOpcode .ret
  | st, .breakStmt _ => st.setPanic
  | st, .expression e => (exprC st e).emitOpcode .pop

/-- A statement sequence, in order. -/
def stmtsC : CState → StmtList → CState
  | st, .nil => st
  | st, .cons s rest => stmtsC (stmtC st s) rest

/-- `Compiler::expression` dispatch (crates expressions.rs 13-30) with
`block_expr`/`if_expr`/`while_expr`/`assign_expr`/`binary_expr`/
`constant_expr` inlined into their arms.  `Property`/`Index`/`Record`
reference the opcodes `GetProperty`/`Index`/`Record`, which do not exist in
chunk.rs, so reaching them is modelled as a panic after their subexpressions
compile. -/
def exprC : CState → Expr → CState
  | st, .error => st.setPanic
  | st, .log e => (exprC st e).emitOpcode .log
  | st, .block stmts tail =>
      -- block_expr (expressions.rs 37-53): promote to a Block function in a
      -- fresh context (with_context, modelled from the spec context
      -- lifecycle), then Closure + Call(0).  The inner block helper
      -- (statements, then tail or Tuple(0)) is modelled from spec 4.2.
      let st1 := { st with contexts := CContext.new .block :: st.contexts }
      let st2 := st1.beginScope
      let stB := stmtsC st2 stmts
      let st3 :=
        match tail with
        | .someE e => exprC stB e
        | .noneE => stB.emitOpcode (.tuple 0)
      let st4 := st3.emitOpcode .ret
      match st4.contexts with
      | [] => st4.setPanic
      | c :: rest =>
          let st5 := { st4 with contexts := rest }
          let r := st5.makeConstant (.function c.function)
          let st6 := r.2.emitOpcode (.closure r.1 c.upvalues)
          st6.emitOpcode (.call 0)
  | st, .ifE cond tB fB =>
      -- if_expr (expressions.rs 55-79), including the restriction of the
      -- else branch to a block or another if.
      let st1 := exprC st cond
      let r := st1.emitOpcodeIdx (.jumpIfFalse 0)
      let st2 := r.2.emitOpcode .pop
      let st3 := exprC st2 tB
      let r2 := st3.emitOpcodeIdx (.jump .forwards 0)
      let st4 := r2.2.patchJump r.1
      let st5 := st4.emitOpcode .pop
      let st6 :=
        match fB with
        | .noneE => st5
        | .someE (.block stmts tail) => exprC st5 (.block stmts tail)
        | .someE (.ifE c t f) => exprC st5 (.ifE c t f)
        | .someE _ =>
            st5.setError (.undefinedBehavior
              "An expression other than if or block was found in the else clause.")
      st6.patchJump r2.1
  | st, .whileE cond stmts =>
      -- while_expr (expressions.rs 81-98).
      let loopStart := st.codeLen
      let st1 := exprC st cond
      let r := st1.emitOpcodeIdx (.jumpIfFalse 0)
      let st2 := r.2.emitOpcode .pop
      let st3 := stmtsC st2 stmts
      let st4 := st3.emitLoop loopStart
      let st5 := st4.patchJump r.1
      let st6 := st5.emitOpcode .pop
      st6.emitOpcode (.tuple 0)
  | st, .assign target op rhs =>
      -- assign_expr (expressions.rs 100-162): the only legal target is an
      -- identifier; simple assignment compiles the value then the set op,
      -- compound operators read-modify-write, and the logical compound
      -- assignments mirror the short-circuit jump patterns.
      match target with
      | .constant (.ident name) =>
          let r := st.resolveVariable name
          let getOp := r.1.1
          let setOp := r.1.2
          let st0 := r.2
          match op with
          | .assign => (exprC st0 rhs).emitOpcode setOp
          | .addAssign =>
              ((exprC (st0.emitOpcode getOp) rhs).emitOpcode .add).emitOpcode setOp
          | .subtractAssign =>
              ((exprC (st0.emitOpcode getOp) rhs).emitOpcode .subtract).emitOpcode setOp
          | .multiplyAssign =>
              ((exprC (st0.emitOpcode getOp) rhs).emitOpcode .multiply).emitOpcode setOp
          | .divideAssign =>
              ((exprC (st0.emitOpcode getOp) rhs).emitOpcode .divide).emitOpcode setOp
          | .exponentAssign =>
              ((exprC (st0.emitOpcode getOp) rhs).emitOpcode .exponent).emitOpcode setOp
          | .orAssign =>
              let st1 := st0.emitOpcode getOp
              let rElse := st1.emitOpcodeIdx (.jumpIfFalse 0)
              let rEnd := rElse.2.emitOpcodeIdx (.jump .forwards 0)
              let st2 := (rEnd.2.patchJump rElse.1).emitOpcode .pop
              (exprC st2 rhs).patchJump rEnd.1
          | .andAssign =>
              let st1 := st0.emitOpcode getOp
              let rEnd := st1.emitOpcodeIdx (.jumpIfFalse 0)
              let st2 := rEnd.2.emitOpcode .pop
              (exprC st2 rhs).patchJump rEnd.1
      | _ => st.setError .invalidAssignmentTarget
  | st, .binary lhs op rhs =>
      -- binary_expr (expressions.rs 164-245): Or/And emit the short-circuit
      -- jump patterns; the rest compile both operands and emit opcode(s),
      -- with !=, >=, <= lowered through Not.
      match op with
      | .orOp =>
          let st1 := exprC st lhs
          let rElse := st1.emitOpcodeIdx (.jumpIfFalse 0)
          let rEnd := rElse.2.emitOpcodeIdx (.jump .forwards 0)
          let st2 := (rEnd.2.patchJump rElse.1).emitOpcode .pop
          (exprC st2 rhs).patchJump rEnd.1
      | .andOp =>
          let st1 := exprC st lhs
          let rEnd := st1.emitOpcodeIdx (.jumpIfFalse 0)
          let st2 := rEnd.2.emitOpcode .pop
          (exprC st2 rhs).patchJump rEnd.1
      | .equal => (exprC (exprC st lhs) rhs).emitOpcode .equal
      | .notEqual => ((exprC (exprC st lhs) rhs).emitOpcode .equal).emitOpcode .nott
      | .greaterThan => (exprC (exprC st lhs) rhs).emitOpcode .greaterThan
      | .greaterEqual => ((exprC (exprC st lhs) rhs).emitOpcode .lessThan).emitOpcode .nott
      | .lessThan => (exprC (exprC st lhs) rhs).emitOpcode .lessThan
      | .lessEqual => ((exprC (exprC st lhs) rhs).emitOpcode .greaterThan).emitOpcode .nott
      | .add => (exprC (exprC st lhs) rhs).emitOpcode .add
      | .subtract => (exprC (exprC st lhs) rhs).emitOpcode .subtract
      | .multiply => (exprC (exprC st lhs) rhs).emitOpcode .multiply
      | .divide => (exprC (exprC st lhs) rhs).emitOpcode .divide
      | .exponent => (exprC (exprC st lhs) rhs).emitOpcode .exponent
  | st, .unary op e =>
      let st1 := exprC st e
      match op with
      | .negate => st1.emitOpcode .negate
      | .nott => st1.emitOpcode .nott
  | st, .property e _ => (exprC st e).setPanic
  | st, .index e i => (exprC (exprC st e) i).setPanic
  | st, .call f args =>
      -- call_expr (expressions.rs 268-277); args.len() > u8::MAX makes the
      -- final try_into().unwrap() panic.
      let st1 := exprC st f
      let st2 := argsC st1 args.length args
      if args.length > 255 then st2.setPanic
      else st2.emitOpcode (.call args.length)
  | st, .constant c =>
      -- constant_expr (expressions.rs 279-317).  String constants are
      -- stripped of their delimiter quotes; the Record arm compiles its
      -- fields but targets the nonexistent Record opcode.
      match c with
      | .ctrue => st.emitOpcode .otrue
      | .cfalse => st.emitOpcode .ofalse
      | .ident name =>
          let r := st.resolveVariable name
          r.2.emitOpcode r.1.1
      | .number n =>
          let r := st.makeConstant (.number n)
          r.2.emitOpcode (.constant r.1)
      | .string s =>
          let r := st.makeConstant (.string (stripQuotes s))
          r.2.emitOpcode (.constant r.1)
      | .ctuple es =>
          let st1 := tupleElemsC st es
          if es.length > 255 then st1.setPanic
          else st1.emitOpcode (.tuple es.length)
      | .record fs => (recordFieldsC st fs).setPanic

/-- The argument loop of `call_expr` (crates expressions.rs 268-277): compile
each argument, recording `TooManyArguments` whenever the TOTAL argument count
is at least 255 (the source tests `args.len()` inside the loop). -/
def argsC : CState → Nat → ExprList → CState
  | st, _, .nil => st
  | st, total, .cons e rest =>
      let st1 := exprC st e
      let st2 := if 255 ≤ total then st1.setError .tooManyArguments else st1
      argsC st2 total rest

/-- The element loop of a tuple literal. -/
def tupleElemsC : CState → ExprList → CState
  | st, .nil => st
  | st, .cons e rest => tupleElemsC (exprC st e) rest

/-- The field loop of a record literal: compile the value, intern the
(possibly quote-stripped) key. -/
def recordFieldsC : CState → REFields → CState
  | st, .nil => st
  | st, .cons k e rest =>
      let st1 := exprC st e
      let prop := if k.startsWith "\"" then stripQuotes k else k
      let r := st1.makeConstant (.string prop)
      let st2 := r.2.emitOpcode (.constant r.1)
      recordFieldsC st2 rest
end

/-- `end_compiler` (crates compiler.rs 761-777): emit `Return`, pop the
context, return its function. -/
def endCompiler (st : CState) : CState × Func :=
  let st1 := st.emitOpcode .ret
  match st1.contexts with
  | [] => (st1.setPanic, .mk 0 (.mk [] .nil) "")
  | c :: rest => ({ st1 with contexts := rest }, c.function)

/-- `Compiler::compile` (crates compiler.rs 22-30, statements dispatched
through statements.rs): compile each statement, emit the final `Tuple(0)`,
finish with `end_compiler`. -/
def compileAst (ast : StmtList) : CState × Func :=
  endCompiler ((stmtsC CState.initial ast).emitOpcode (.tuple 0))

/-- Modelled from the spec: `compile_expr` over the AST (the crates revision
is all `todo!()`; the parser-based revision compiles just the expression and
ends with `end_compiler`, emitting no trailing unit). -/
def compileExprAst (e : Expr) : CState × Func :=
  endCompiler (exprC CState.initial e)

/-- A compilation result is usable when no error was recorded and no panic
was hit (`compile` returns `Err` on a recorded error). -/
def compileOk? (p : CState × Func) : Option Func :=
  if p.1.error = none ∧ p.1.panicked = false then some p.2 else none

/-! ## Shared facts about `step` -/

/-- A successful `VM::call` pushes exactly one frame and only fires when the
frame stack was not full. -/
theorem call_ok_frames {s : VMState} {c : Closure} {n : Nat} {s2 : VMState}
    (h : s.call c n = some (.ok s2)) :
    s2.frames.length = s.frames.length + 1 ∧ s.frames.length ≠ 64 := by
  unfold VMState.call at h
  split at h
  · simp at h
  · split at h
    · simp at h
    · split at h
      · rename_i h64 hstk
        simp only [Option.some.injEq, Except.ok.injEq] at h
        subst h
        exact ⟨rfl, h64⟩
      · simp at h

/-- A successful `call_value` leaves the frame count unchanged (native) or
pushes one guarded frame (closure). -/
theorem callValue_ok_frames {s : VMState} {v : Value} {n : Nat} {s2 : VMState}
    (h : s.callValue v n = some (.ok s2)) :
    s2.frames.length = s.frames.length ∨
      (s2.frames.length = s.frames.length + 1 ∧ s.frames.length ≠ 64) := by
  unfold VMState.callValue at h
  split at h
  · exact .inr (call_ok_frames h)
  · split at h
    · split at h
      · simp at h
      · simp only [Option.some.injEq, Except.ok.injEq] at h
        subst h
        exact .inl rfl
    · simp at h
  · simp at h

/-- The `binary_op!` macro never touches the frame stack. -/
theorem binaryOpNum_next_frames {s1 : VMState} {p : ℚ → ℚ → Value} {s' : VMState}
    (h : binaryOpNum s1 p = .next s') : s'.frames = s1.frames := by
  unfold binaryOpNum at h
  dsimp only at h
  cases hA : (peekAndPopAsNumber (peekAndPopAsNumber s1.stack).2).1 with
  | error e =>
      simp only [hA] at h
      cases h
  | ok a =>
    cases hB : (peekAndPopAsNumber s1.stack).1 with
    | error e =>
        simp only [hA, hB] at h
        cases h
    | ok b =>
      simp only [hA, hB] at h
      cases h
      rfl

/-- One dispatch never grows the frame stack beyond 64: the only push goes
through `VM::call`, which errors at 64. -/
theorem step_next_frames {s s' : VMState} (h : step s = .next s')
    (hle : s.frames.length ≤ 64) : s'.frames.length ≤ 64 := by
  unfold step at h
  dsimp only at h
  repeat' split at h
  all_goals try cases h
  all_goals try (simp_all; done)
  all_goals try (simp_all; omega)
  all_goals try (rw [binaryOpNum_next_frames h]; simp_all)
  all_goals rename_i heqc
  all_goals rcases callValue_ok_frames heqc with h1 | ⟨h1, h2⟩ <;> simp_all <;> omega

/-- `HashMap::insert` keeps every existing binding's key present. -/
theorem globalsInsert_isSome {g : List (String × Value)} {k : String} (n : String) (v : Value)
    (hb : (globalsLookup g k).isSome) :
    (globalsLookup (globalsInsert g n v) k).isSome := by
  induction g with
  | nil => simp [globalsLookup] at hb
  | cons p rest ih =>
      obtain ⟨pk, pv⟩ := p
      by_cases hpk : pk == n
      · simp [globalsInsert, hpk, globalsLookup]
        by_cases hk : pk == k <;> simp_all [globalsLookup]
      · simp only [globalsInsert, hpk, Bool.false_eq_true, if_false]
        by_cases hk : pk == k <;> simp_all [globalsLookup]

/-- `SetGlobal`'s in-place update keeps every existing binding's key
present. -/
theorem globalsUpdate_isSome {g g' : List (String × Value)} {k : String} {n : String} {v : Value}
    (hu : globalsUpdate g n v = some g')
    (hb : (globalsLookup g k).isSome) :
    (globalsLookup g' k).isSome := by
  induction g generalizing g' with
  | nil => simp [globalsUpdate] at hu
  | cons p rest ih =>
      obtain ⟨pk, pv⟩ := p
      by_cases hpk : pk == n
      · simp only [globalsUpdate, hpk, if_true] at hu
        cases hu
        by_cases hk : pk == k <;> simp_all [globalsLookup]
      · simp only [globalsUpdate, hpk, Bool.false_eq_true, if_false] at hu
        cases hrest : globalsUpdate rest n v with
        | none => simp [hrest] at hu
        | some r =>
            simp only [hrest, Option.map_some] at hu
            cases hu
            by_cases hk : pk == k <;> simp_all [globalsLookup]

/-- The `binary_op!` macro never touches the globals table. -/
theorem binaryOpNum_globals {s1 : VMState} {p : ℚ → ℚ → Value} {s' : VMState}
    (h : binaryOpNum s1 p = .next s' ∨ ∃ e, binaryOpNum s1 p = .err e s') :
    s'.globals = s1.globals := by
  rcases h with h | ⟨e, h⟩ <;>
    (unfold binaryOpNum at h
     dsimp only at h
     cases hA : (peekAndPopAsNumber (peekAndPopAsNumber s1.stack).2).1 <;>
       cases hB : (peekAndPopAsNumber s1.stack).1 <;>
         simp only [hA, hB] at h <;> (try cases h) <;> simp_all)

/-- A successful `call_value` never touches the globals table. -/
theorem callValue_ok_globals {s : VMState} {v : Value} {n : Nat} {s2 : VMState}
    (h : s.callValue v n = some (.ok s2)) : s2.globals = s.globals := by
  unfold VMState.callValue at h
  split at h
  · unfold VMState.call at h
    split at h
    · simp at h
    · split at h
      · simp at h
      · split at h
        · simp only [Option.some.injEq, Except.ok.injEq] at h
          subst h
          rfl
        · simp at h
  · split at h
    · split at h
      · simp at h
      · simp only [Option.some.injEq, Except.ok.injEq] at h
        subst h
        rfl
    · simp at h
  · simp at h

/-- Whether the dispatch continues or surfaces a runtime error, a global
binding's key stays bound: only `DefineGlobal` (insert) and `SetGlobal`
(in-place update) change the table, and neither removes a key. -/
theorem step_globals_mono {s s' : VMState} {k : String}
    (h : step s = .next s' ∨ ∃ e, step s = .err e s')
    (hb : (globalsLookup s.globals k).isSome) :
    (globalsLookup s'.globals k).isSome := by
  rcases h with h | ⟨e, h⟩ <;>
  · unfold step at h
    dsimp only at h
    repeat' split at h
    all_goals try cases h
    all_goals try (simp_all; done)
    all_goals try (rw [binaryOpNum_globals (.inl h)]; simp_all; done)
    all_goals try (rw [binaryOpNum_globals (.inr ⟨_, h⟩)]; simp_all; done)
    all_goals try (rename_i heqc; rw [callValue_ok_globals heqc]; simp_all; done)
    all_goals try (rename_i heqc; exact globalsInsert_isSome _ _ hb)
    all_goals rename_i hupd
    all_goals exact globalsUpdate_isSome hupd hb

/-- Over a whole aborted run, every key bound at the start (hence also any
binding a `DefineGlobal` inserted along the way) is still bound in the state
the error surfaces with. -/
theorem runFuel_err_globals_mono {fuel : Nat} {s s' : VMState} {e : RuntimeError} {k : String}
    (h : runFuel fuel s = .err e s')
    (hb : (globalsLookup s.globals k).isSome) :
    (globalsLookup s'.globals k).isSome := by
  induction fuel generalizing s with
  | zero => cases h
  | succ n ih =>
      unfold runFuel at h
      cases hs : step s with
      | next s1 =>
          rw [hs] at h
          exact ih h (step_globals_mono (.inl hs) hb)
      | halt v s1 => rw [hs] at h; cases h
      | err e1 s1 =>
          rw [hs] at h
          cases h
          exact step_globals_mono (.inr ⟨_, hs⟩) hb
      | crashed => rw [hs] at h; cases h

/-! ## Facts about `Value::equal` (claim C4) -/

/-- `Value::equal` is symmetric, jointly with its tuple-element loop. -/
theorem Value.equal_symm (a b : Value) : a.equal b = b.equal a := by
  refine Value.equal.induct (fun x y => x.equal y = y.equal x)
    (fun xs ys => ValueList.equalElems xs ys = ValueList.equalElems ys xs)
    ?_ ?_ ?_ ?_ ?_ ?_ ?_ ?_ a b
  · intro x y
    simp [Value.equal, abs_sub_comm]
  · intro x y
    cases x <;> cases y <;> rfl
  · intro x y
    by_cases h : x = y
    · simp [Value.equal, h]
    · simp [Value.equal, h, Ne.symm h]
  · intro xs ys ih
    by_cases hl : xs.length = ys.length
    · simp [Value.equal, hl, ih]
    · have h1 : (xs.length == ys.length) = false := by simpa using hl
      have h2 : (ys.length == xs.length) = false := by simpa using Ne.symm hl
      simp [Value.equal, h1, h2]
  · intro t x h1 h2 h3 h4
    cases t <;> cases x <;>
      first
      | rfl
      | exact (h1 _ _ rfl rfl).elim
      | exact (h2 _ _ rfl rfl).elim
      | exact (h3 _ _ rfl rfl).elim
      | exact (h4 _ _ rfl rfl).elim
  · rfl
  · intro x xs y ys ih1 ih2
    simp [ValueList.equalElems, ih1, ih2]
  · intro t x h1 h2
    cases t <;> cases x <;>
      first
      | rfl
      | exact (h1 rfl rfl).elim
      | exact (h2 _ _ _ _ rfl rfl).elim

/-- `Value::equal` is reflexive on plain values (numbers, booleans, strings
and tuples thereof). -/
theorem Value.equal_refl_plain (a : Value) (h : a.isPlain = true) :
    a.equal a = true := by
  refine Value.isPlain.induct (fun x => x.isPlain = true → x.equal x = true)
    (fun vs => ValueList.allPlain vs = true → ValueList.equalElems vs vs = true)
    ?_ ?_ ?_ ?_ ?_ ?_ ?_ a h
  · intro x _
    simp only [Value.equal, decide_eq_true_eq]
    rw [sub_self, abs_zero]
    norm_num [eps]
  · intro x _
    cases x <;> rfl
  · intro x _
    simp [Value.equal]
  · intro vs ih hp
    rw [Value.isPlain] at hp
    simp [Value.equal, ih hp]
  · intro t h1 h2 h3 h4 hp
    cases t <;>
      first
      | exact (h1 _ rfl).elim
      | exact (h2 _ rfl).elim
      | exact (h3 _ rfl).elim
      | exact (h4 _ rfl).elim
      | simp [Value.isPlain] at hp
  · intro _
    rfl
  · intro v vs ih1 ih2 hp
    rw [ValueList.allPlain, Bool.and_eq_true] at hp
    simp [ValueList.equalElems, ih1 hp.1, ih2 hp.2]

/-- `ValueList.length` agrees with the length of the `List` view. -/
theorem ValueList.length_toList : ∀ (xs : ValueList), xs.length = xs.toList.length
  | .nil => rfl
  | .cons _ xs => by simp [ValueList.length, ValueList.toList, ValueList.length_toList xs]

/-- The tuple-element loop of `Value::equal` is pointwise equality. -/
theorem ValueList.equalElems_iff : ∀ (xs ys : ValueList),
    ValueList.equalElems xs ys = true ↔
      List.Forall₂ (fun x y => Value.equal x y = true) xs.toList ys.toList
  | .nil, .nil => by simp [ValueList.equalElems, ValueList.toList]
  | .nil, .cons y ys => by simp [ValueList.equalElems, ValueList.toList]
  | .cons x xs, .nil => by simp [ValueList.equalElems, ValueList.toList]
  | .cons x xs, .cons y ys => by
      simp [ValueList.equalElems, ValueList.toList, ValueList.equalElems_iff xs ys]

/-- Claim C4, corrected.  `Value::equal` is symmetric and total; it is
reflexive on values built from numbers, booleans, strings and tuples; number
pairs are equal within `eps`, boolean and string pairs structurally, tuple
pairs pointwise; and a `true` result forces the operands to be one of those
four matching kinds, so every other combination, same-kind record, function,
native-function and closure pairs included, is `false` (and reflexivity fails
there, witnessed separately). -/
theorem C4_equal_characterisation :
    (∀ a b : Value, a.equal b = b.equal a) ∧
    (∀ a : Value, a.isPlain = true → a.equal a = true) ∧
    (∀ x y : ℚ, (Value.number x).equal (.number y) = true ↔ |x - y| < eps) ∧
    (∀ x y : Bool, (Value.boolean x).equal (.boolean y) = true ↔ x = y) ∧
    (∀ x y : String, (Value.string x).equal (.string y) = true ↔ x = y) ∧
    (∀ xs ys : ValueList, (Value.tuple xs).equal (.tuple ys) = true ↔
      List.Forall₂ (fun x y => Value.equal x y = true) xs.toList ys.toList) ∧
    (∀ a b : Value, a.equal b = true →
      (∃ x y, a = Value.number x ∧ b = Value.number y) ∨
      (∃ x y, a = Value.boolean x ∧ b = Value.boolean y) ∨
      (∃ x y, a = Value.string x ∧ b = Value.string y) ∨
      (∃ xs ys, a = Value.tuple xs ∧ b = Value.tuple ys)) := by
  refine ⟨Value.equal_symm, Value.equal_refl_plain, ?_, ?_, ?_, ?_, ?_⟩
  · intro x y
    simp [Value.equal]
  · intro x y
    cases x <;> cases y <;> simp [Value.equal]
  · intro x y
    simp [Value.equal]
  · intro xs ys
    rw [Value.equal, Bool.and_eq_true]
    constructor
    · intro ⟨_, h⟩
      exact (ValueList.equalElems_iff xs ys).mp h
    · intro h
      refine ⟨?_, (ValueList.equalElems_iff xs ys).mpr h⟩
      have := h.length_eq
      simp [ValueList.length_toList, this]
  · intro a b h
    cases a <;> cases b <;>
      first
      | exact .inl ⟨_, _, rfl, rfl⟩
      | exact .inr (.inl ⟨_, _, rfl, rfl⟩)
      | exact .inr (.inr (.inl ⟨_, _, rfl, rfl⟩))
      | exact .inr (.inr (.inr ⟨_, _, rfl, rfl⟩))
      | simp [Value.equal] at h

/-- Claim C4 as stated is false: `Equal` is not reflexive on every value; an
empty record compared with itself is `false` (the record arm falls into the
catch-all of `Value::equal`). -/
theorem C4_counterexample : ¬ (∀ a : Value, a.equal a = true) := by
  intro h
  have := h (.record .nil)
  simp [Value.equal] at this

/-- The characterisation applied at concrete inputs, discharging its
hypotheses. -/
theorem C4_witness :
    (Value.number 1).equal (.number 1) = true ∧
    (Value.tuple (.cons (.string "x") .nil)).equal
      (.tuple (.cons (.string "x") .nil)) = true := by
  constructor
  · exact C4_equal_characterisation.2.1 (.number 1) rfl
  · exact C4_equal_characterisation.2.1 (.tuple (.cons (.string "x") .nil)) rfl


/-! ## Facts about `declare_variable` (claim C2) -/

/-- The two-break scan of `declare_variable` finds exactly the names in the
prefix of the locals (innermost outward) before the first initialised local
of a shallower scope. -/
theorem scanDeclare_iff (name : String) (d : Int) : ∀ ls : List LocalV,
    scanDeclare name d ls = true ↔
      ∃ l ∈ ls.takeWhile (fun l => !(l.depth != -1 && decide (l.depth < d))),
        l.name = name := by
  intro ls
  induction ls with
  | nil => simp [scanDeclare]
  | cons l rest ih =>
      rw [List.takeWhile_cons]
      by_cases hstop : (l.depth != -1 && decide (l.depth < d)) = true
      · have hp : (!(l.depth != -1 && decide (l.depth < d))) = false := by
          rw [hstop]
          rfl
        rw [hp]
        simp only [Bool.false_eq_true, if_false]
        rw [scanDeclare]
        simp [hstop]
      · have hb : (l.depth != -1 && decide (l.depth < d)) = false := by
          cases h : (l.depth != -1 && decide (l.depth < d))
          · rfl
          · exact absurd h hstop
        have hp : (!(l.depth != -1 && decide (l.depth < d))) = true := by
          rw [hb]
          rfl
        rw [hp]
        simp only [if_true]
        by_cases hname : l.name = name
        · constructor
          · intro _
            exact ⟨l, List.mem_cons_self l _, hname⟩
          · intro _
            simp [scanDeclare, hb, hname]
        · constructor
          · intro h
            have h2 : scanDeclare name d rest = true := by
              simp only [scanDeclare, hb] at h
              simpa [hname] using h
            obtain ⟨x, hx, hxn⟩ := ih.mp h2
            exact ⟨x, List.mem_cons_of_mem l hx, hxn⟩
          · intro ⟨x, hx, hxn⟩
            rcases List.mem_cons.mp hx with h | h
            · exact absurd (h ▸ hxn) hname
            · simp [scanDeclare, hb, hname, ih.mpr ⟨x, h, hxn⟩]

/-- Claim C2, corrected.  At positive scope depth, `declare_variable`
(src/bobascript/src/compiler/compiler.rs 626-653) fails with
`VariableAlreadyExists` exactly when the name occurs among the locals scanned
innermost-outward BEFORE the first initialised local of a shallower scope —
so same-depth duplicates fail, but so does shadowing a still-uninitialised
(sentinel-depth) local of an enclosing scope; shadowing initialised locals of
enclosing scopes succeeds and pushes a new uninitialised sentinel local. -/
theorem C2_declare_characterisation (locals : List LocalV) (d : Int) (name : String)
    (hd : 0 < d) :
    (declareVariable locals d name = .error (.variableAlreadyExists name) ↔
      ∃ l ∈ locals.takeWhile (fun l => !(l.depth != -1 && decide (l.depth < d))),
        l.name = name) ∧
    ((∀ l ∈ locals, l.name = name → l.depth ≠ -1 ∧ l.depth < d) →
      declareVariable locals d name = .ok (⟨name, -1, false⟩ :: locals)) ∧
    (declareVariable locals d name ≠ .error (.variableAlreadyExists name) →
      declareVariable locals d name = .ok (⟨name, -1, false⟩ :: locals)) := by
  have hgt : d > 0 := hd
  refine ⟨?_, ?_, ?_⟩
  · by_cases hs : scanDeclare name d locals = true
    · rw [← scanDeclare_iff]
      simp [declareVariable, hgt, hs]
    · rw [← scanDeclare_iff]
      simp [declareVariable, hgt, hs]
  · intro hshadow
    have hs : scanDeclare name d locals = false := by
      cases h : scanDeclare name d locals
      · rfl
      · exfalso
        obtain ⟨l, hmem, hname⟩ := (scanDeclare_iff name d locals).mp h
        have hmem' : l ∈ locals := (List.takeWhile_prefix _).subset hmem
        have hprop := List.mem_takeWhile_imp hmem
        obtain ⟨h1, h2⟩ := hshadow l hmem' hname
        simp [h1, h2] at hprop
    simp [declareVariable, hgt, hs]
  · intro hne
    by_cases hs : scanDeclare name d locals = true
    · exact absurd (by simp [declareVariable, hgt, hs]) hne
    · simp [declareVariable, hgt, hs]

/-- Claim C2 as stated is false: with the locals stack
`[x (sentinel depth -1), "" (depth 0)]` at scope depth 2 — reachable by
compiling `fn f() { let x = { let x = 1; ... }; }` in the parser-based
revision — declaring `x` fails with `VariableAlreadyExists` although no local
at the current depth (2) carries the name. -/
theorem C2_counterexample :
    declareVariable [⟨"x", -1, false⟩, ⟨"", 0, false⟩] 2 "x" =
      .error (.variableAlreadyExists "x") ∧
    ∀ l ∈ [LocalV.mk "x" (-1) false, LocalV.mk "" 0 false], l.depth ≠ 2 := by
  constructor
  · rfl
  · decide

/-- The characterisation applied at a concrete input: shadowing an
initialised local of an enclosing scope succeeds with a sentinel push. -/
theorem C2_witness :
    declareVariable [⟨"y", 1, false⟩] 2 "x" = .ok [⟨"x", -1, false⟩, ⟨"y", 1, false⟩] :=
  (C2_declare_characterisation [⟨"y", 1, false⟩] 2 "x" (by decide)).2.1 (by decide)

/-! ## Concrete fixtures -/

/-- An empty host table (no native has been installed; dereferencing any key
is an `Unknown` error, which no claim exercises). -/
def emptyNatives : Nat → List Value → Except RuntimeError Value :=
  fun _ _ => .error .unknown

/-- `VM::new()`: empty frames, stack, globals and upvalue registry. -/
def vmNew : VMState := ⟨[], [], [], [], emptyNatives⟩

/-- The VM state right after `interpret`'s setup for a zero-arity script
function on a fresh VM: one frame at `ip = 0` with `slots_start = 0`, the
script closure on the stack. -/
def runScript (f : Func) (fuel : Nat) : RunRes :=
  runFuel fuel ⟨[⟨⟨f, []⟩, 0, 0⟩], [Value.closure ⟨f, []⟩], [], [], emptyNatives⟩

/-- Build a `StmtList` from a `List Stmt`. -/
def StmtList.ofList : List Stmt → StmtList
  | [] => .nil
  | s :: rest => .cons s (StmtList.ofList rest)

/-- Identifier expression shorthand. -/
def identE (n : String) : Expr := .constant (.ident n)

/-- String-literal expression shorthand (with delimiter quotes, as the
parser delivers them). -/
def strE (s : String) : Expr := .constant (.string s)

/-! ## Claim C3: `JumpIfFalse` (corrected) -/

/-- Claim C3, corrected.  `JumpIfFalse(offset)` peeks: the value stack is
unchanged in every outcome.  On `Boolean(true)` the frame only advances past
the instruction; on `Boolean(false)` it additionally skips `offset`
instructions; on any NON-boolean top the VM does not surface a `TypeError` —
the `.unwrap()` of the failed conversion is a Rust panic. -/
theorem C3_jumpIfFalse_semantics (c : Closure) (ip slots : Nat) (rest : List CallFrame)
    (v : Value) (stk : List Value) (gl : List (String × Value))
    (ups : List Upvalue) (na : Nat → List Value → Except RuntimeError Value)
    (off : Nat)
    (hfetch : c.function.chunk.code[ip]? = some (.jumpIfFalse off)) :
    (v = .boolean true →
      step ⟨⟨c, ip, slots⟩ :: rest, v :: stk, gl, ups, na⟩ =
        .next ⟨⟨c, ip + 1, slots⟩ :: rest, v :: stk, gl, ups, na⟩) ∧
    (v = .boolean false →
      step ⟨⟨c, ip, slots⟩ :: rest, v :: stk, gl, ups, na⟩ =
        .next ⟨⟨c, ip + 1 + off, slots⟩ :: rest, v :: stk, gl, ups, na⟩) ∧
    ((∀ b, v ≠ Value.boolean b) →
      step ⟨⟨c, ip, slots⟩ :: rest, v :: stk, gl, ups, na⟩ = .crashed) := by
  refine ⟨?_, ?_, ?_⟩
  · intro hv
    subst hv
    simp [step, hfetch]
  · intro hv
    subst hv
    simp [step, hfetch]
  · intro hv
    cases v <;> first
      | exact absurd rfl (hv _)
      | simp [step, hfetch]

/-- A closure whose chunk is the single instruction `JumpIfFalse 0`. -/
def c3Closure : Closure := ⟨.mk 0 (.mk [.jumpIfFalse 0] .nil) "", []⟩

/-- Claim C3 as stated is false at a concrete input: with `Number 1` on top
of the stack the dispatch is a panic, not the surfaced
`TypeError { expected: "boolean" }` the claim promises. -/
theorem C3_counterexample :
    step ⟨[⟨c3Closure, 0, 0⟩], [.number 1], [], [], emptyNatives⟩ = .crashed ∧
    ∀ s', step ⟨[⟨c3Closure, 0, 0⟩], [.number 1], [], [], emptyNatives⟩ ≠
      .err (.typeError "boolean" (.number 1)) s' := by
  constructor
  · rfl
  · intro s'
    rw [show step ⟨[⟨c3Closure, 0, 0⟩], [.number 1], [], [], emptyNatives⟩ =
      .crashed from rfl]
    simp

/-- The semantics applied at a concrete input: a false top takes the
branch. -/
theorem C3_witness :
    step ⟨[⟨c3Closure, 0, 0⟩], [.boolean false], [], [], emptyNatives⟩ =
      .next ⟨[⟨c3Closure, 1, 0⟩], [.boolean false], [], [], emptyNatives⟩ :=
  (C3_jumpIfFalse_semantics c3Closure 0 0 [] (.boolean false) [] [] []
    emptyNatives 0 rfl).2.1 rfl

/-! ## Claim C9: jump patching (confirmed) -/

/-- Claim C9.  `patch_jump` rewrites the placeholder at index `j` with
offset `L - 1 - j` (for `L` the code length at patch time, both jump kinds);
`emit_loop` appends a backwards jump with offset `L - loop_start + 1`; and
under the VM's advance-then-add discipline a taken patched forward jump at
`j` lands exactly at `L`, while the backwards loop jump emitted at index `n`
lands exactly at `loop_start`. -/
theorem C9_jump_patching :
    (∀ (code : List OpCode) (ks : ValueList) (j off0 : Nat) (dir : JumpDirection),
      code[j]? = some (.jump dir off0) →
      (Chunk.mk code ks).patchJump j =
        some (.mk (code.set j (.jump dir (code.length - 1 - j))) ks)) ∧
    (∀ (code : List OpCode) (ks : ValueList) (j off0 : Nat),
      code[j]? = some (.jumpIfFalse off0) →
      (Chunk.mk code ks).patchJump j =
        some (.mk (code.set j (.jumpIfFalse (code.length - 1 - j))) ks)) ∧
    (∀ (c : Chunk) (start : Nat),
      (c.emitLoop start).code = c.code ++ [.jump .backwards (c.code.length - start + 1)]) ∧
    (∀ (c : Closure) (j slots : Nat) (rest : List CallFrame) (stk : List Value)
      (gl : List (String × Value)) (ups : List Upvalue)
      (na : Nat → List Value → Except RuntimeError Value) (L : Nat),
      c.function.chunk.code[j]? = some (.jumpIfFalse (L - 1 - j)) → j < L →
      step ⟨⟨c, j, slots⟩ :: rest, .boolean false :: stk, gl, ups, na⟩ =
        .next ⟨⟨c, L, slots⟩ :: rest, .boolean false :: stk, gl, ups, na⟩) ∧
    (∀ (c : Closure) (j slots : Nat) (rest : List CallFrame) (stk : List Value)
      (gl : List (String × Value)) (ups : List Upvalue)
      (na : Nat → List Value → Except RuntimeError Value) (L : Nat),
      c.function.chunk.code[j]? = some (.jump .forwards (L - 1 - j)) → j < L →
      step ⟨⟨c, j, slots⟩ :: rest, stk, gl, ups, na⟩ =
        .next ⟨⟨c, L, slots⟩ :: rest, stk, gl, ups, na⟩) ∧
    (∀ (c : Closure) (n slots loopStart : Nat) (rest : List CallFrame) (stk : List Value)
      (gl : List (String × Value)) (ups : List Upvalue)
      (na : Nat → List Value → Except RuntimeError Value),
      c.function.chunk.code[n]? = some (.jump .backwards (n - loopStart + 1)) →
      loopStart ≤ n →
      step ⟨⟨c, n, slots⟩ :: rest, stk, gl, ups, na⟩ =
        .next ⟨⟨c, loopStart, slots⟩ :: rest, stk, gl, ups, na⟩) := by
  refine ⟨?_, ?_, ?_, ?_, ?_, ?_⟩
  · intro code ks j off0 dir h
    simp [Chunk.patchJump, Chunk.code, Chunk.constants, h]
  · intro code ks j off0 h
    simp [Chunk.patchJump, Chunk.code, Chunk.constants, h]
  · intro c start
    cases c with
    | mk code ks => simp [Chunk.emitLoop, Chunk.code]
  · intro c j slots rest stk gl ups na L h hj
    have harith : j + 1 + (L - 1 - j) = L := by omega
    simp [step, h, harith]
  · intro c j slots rest stk gl ups na L h hj
    have harith : j + 1 + (L - 1 - j) = L := by omega
    simp [step, h, harith]
  · intro c n slots loopStart rest stk gl ups na h hs
    have hle : n - loopStart + 1 ≤ n + 1 := by omega
    have harith : n + 1 - (n - loopStart + 1) = loopStart := by omega
    simp [step, h, hle, harith]

/-- A closure whose chunk is `[JumpIfFalse 2, Pop, Pop, Ret]` — the patched
offset for a jump at index 0 in a chunk of length 3 at patch time. -/
def c9Closure : Closure := ⟨.mk 0 (.mk [.jumpIfFalse 2, .pop, .pop, .ret] .nil) "", []⟩

/-- The patching facts applied at concrete inputs. -/
theorem C9_witness :
    (Chunk.mk [.jumpIfFalse 0, .pop, .pop] .nil).patchJump 0 =
      some (.mk [.jumpIfFalse 2, .pop, .pop] .nil) ∧
    step ⟨[⟨c9Closure, 0, 0⟩], [.boolean false], [], [], emptyNatives⟩ =
      .next ⟨[⟨c9Closure, 3, 0⟩], [.boolean false], [], [], emptyNatives⟩ := by
  constructor
  · exact C9_jump_patching.2.1 [.jumpIfFalse 0, .pop, .pop] .nil 0 0 rfl
  · exact C9_jump_patching.2.2.2.1 c9Closure 0 0 [] [] [] [] emptyNatives 3 rfl
      (by decide)

/-! ## Claim C6: `Add` (confirmed) -/

/-- The operand combinations of `Add`'s concatenation arm: both drawn from
strings and numbers, at least one a string. -/
def addMixed : Value → Value → Bool
  | .string _, .string _ => true
  | .number _, .string _ => true
  | .string _, .number _ => true
  | _, _ => false

/-- Claim C6.  With `b` on top and `a` below: two numbers add; a
string/number mix (at least one string) concatenates the canonical string
conversions of `a` then `b`; every other combination surfaces
`OperationNotSupported` with the operands still on the (peeked, not popped)
stack. -/
theorem C6_add_semantics (c : Closure) (ip slots : Nat) (rest : List CallFrame)
    (a b : Value) (stk : List Value) (gl : List (String × Value))
    (ups : List Upvalue) (na : Nat → List Value → Except RuntimeError Value)
    (hfetch : c.function.chunk.code[ip]? = some .add) :
    (∀ x y, a = .number x → b = .number y →
      step ⟨⟨c, ip, slots⟩ :: rest, b :: a :: stk, gl, ups, na⟩ =
        .next ⟨⟨c, ip + 1, slots⟩ :: rest, .number (x + y) :: stk, gl, ups, na⟩) ∧
    (addMixed a b = true →
      step ⟨⟨c, ip, slots⟩ :: rest, b :: a :: stk, gl, ups, na⟩ =
        .next ⟨⟨c, ip + 1, slots⟩ :: rest,
          .string (valueToString a ++ valueToString b) :: stk, gl, ups, na⟩) ∧
    ((∀ x y, ¬(a = .number x ∧ b = .number y)) → addMixed a b = false →
      step ⟨⟨c, ip, slots⟩ :: rest, b :: a :: stk, gl, ups, na⟩ =
        .err .operationNotSupported
          ⟨⟨c, ip + 1, slots⟩ :: rest, b :: a :: stk, gl, ups, na⟩) := by
  refine ⟨?_, ?_, ?_⟩
  · intro x y hx hy
    subst hx
    subst hy
    simp [step, hfetch]
  · intro hmix
    cases a <;> cases b <;>
      first
      | (simp [step, hfetch]; done)
      | simp [addMixed] at hmix
  · intro hnum hmix
    cases a <;> cases b <;>
      first
      | exact absurd ⟨rfl, rfl⟩ (hnum _ _)
      | (simp [step, hfetch]; done)
      | simp [addMixed] at hmix

/-- A closure whose chunk is the single instruction `Add`. -/
def c6Closure : Closure := ⟨.mk 0 (.mk [.add] .nil) "", []⟩

/-- The `Add` semantics applied at concrete inputs: `1 + 2`, and the mixed
concatenation `"1" + 5` from the repository's own block test. -/
theorem C6_witness :
    step ⟨[⟨c6Closure, 0, 0⟩], [.number 2, .number 1], [], [], emptyNatives⟩ =
      .next ⟨[⟨c6Closure, 1, 0⟩], [.number 3], [], [], emptyNatives⟩ ∧
    step ⟨[⟨c6Closure, 0, 0⟩], [.number 5, .string "1"], [], [], emptyNatives⟩ =
      .next ⟨[⟨c6Closure, 1, 0⟩], [.string "15"], [], [], emptyNatives⟩ := by
  constructor
  · have h := (C6_add_semantics c6Closure 0 0 [] (.number 1) (.number 2) [] [] []
      emptyNatives rfl).1 1 2 rfl rfl
    norm_num at h
    exact h
  · have h := (C6_add_semantics c6Closure 0 0 [] (.string "1") (.number 5) [] [] []
      emptyNatives rfl).2.1 rfl
    simpa [valueToString, Value.toStr] using h

/-! ## Claim C5: call discipline (confirmed) -/

/-- A self-calling script: `GetGlobal "f"; Call 0; Return` with `f` bound to
a closure over this very chunk — an unconditionally recursive function. -/
def recFn : Func := .mk 0 (.mk [.getGlobal 0, .call 0, .ret] (.cons (.string "f") .nil)) ""

/-- The closure of `recFn`. -/
def recClosure : Closure := ⟨recFn, []⟩

/-- The VM state after `interpret`'s setup for `recFn` with `f` pre-bound. -/
def recInit : VMState :=
  ⟨[⟨recClosure, 0, 0⟩], [Value.closure recClosure],
    [("f", Value.closure recClosure)], [], emptyNatives⟩

/-- Claim C5.  `call` fails with `IncorrectParameterCount` on an arity
mismatch, with `StackOverflow` when 64 frames are live, and otherwise — on a
stack holding the callee and its `argc` arguments — pushes a frame with
`slots_start = stack.len() - 1 - argc` (on a shorter stack that usize
subtraction underflow-panics instead); one dispatch never grows the frame
stack beyond 64; and the unconditionally recursive `recFn` aborts with
`StackOverflow` with exactly 64 frames live. -/
theorem C5_call_discipline :
    (∀ (s : VMState) (c : Closure) (n : Nat), n ≠ c.function.arity →
      s.call c n = some (.error (.incorrectParameterCount c.function.arity n))) ∧
    (∀ (s : VMState) (c : Closure) (n : Nat), n = c.function.arity →
      s.frames.length = 64 → s.call c n = some (.error .stackOverflow)) ∧
    (∀ (s : VMState) (c : Closure) (n : Nat), n = c.function.arity →
      s.frames.length ≠ 64 → n + 1 ≤ s.stack.length →
      s.call c n =
        some (.ok { s with frames := ⟨c, 0, s.stack.length - 1 - n⟩ :: s.frames })) ∧
    (∀ (s : VMState) (c : Closure) (n : Nat), n = c.function.arity →
      s.frames.length ≠ 64 → s.stack.length < n + 1 →
      s.call c n = none) ∧
    (∀ (s s' : VMState), step s = .next s' →
      s.frames.length ≤ 64 → s'.frames.length ≤ 64) ∧
    (runFuel 200 recInit).outcome = .err .stackOverflow ∧
    ((runFuel 200 recInit).state?.map (fun st => st.frames.length)) = some 64 := by
  refine ⟨?_, ?_, ?_, ?_, ?_, ?_, ?_⟩
  · intro s c n h
    simp [VMState.call, h]
  · intro s c n h h64
    simp [VMState.call, h, h64]
  · intro s c n h h64 hstk
    subst h
    simp [VMState.call, h64, hstk]
  · intro s c n h h64 hstk
    subst h
    simp [VMState.call, h64]
    omega
  · exact fun {s s'} h hle => step_next_frames h hle
  · rfl
  · rfl

/-- The call discipline applied at concrete inputs: an arity mismatch, a
successful frame push over a stack holding the callee, and the underflow
panic on an empty stack. -/
theorem C5_witness :
    vmNew.call recClosure 1 = some (.error (.incorrectParameterCount 0 1)) ∧
    ({ vmNew with stack := [Value.closure recClosure] } : VMState).call recClosure 0 =
      some (.ok (⟨[⟨recClosure, 0, 0⟩], [Value.closure recClosure], [], [],
        emptyNatives⟩ : VMState)) ∧
    vmNew.call recClosure 0 = none := by
  refine ⟨?_, ?_, ?_⟩
  · exact C5_call_discipline.1 vmNew recClosure 1 (by decide)
  · exact C5_call_discipline.2.2.1 { vmNew with stack := [Value.closure recClosure] }
      recClosure 0 rfl (by decide) (by decide)
  · exact C5_call_discipline.2.2.2.1 vmNew recClosure 0 rfl (by decide) (by decide)

/-! ## Claim C1: native-function calls (code bug) -/

/-- A host table whose native #0 returns `Number 42` whatever it is
passed. -/
def c1Natives : Nat → List Value → Except RuntimeError Value :=
  fun _ _ => .ok (.number 42)

/-- A VM about to `Call(1)` a native: stack (bottom to top) is
`[NativeFunction#0, Number 7]`. -/
def c1State : VMState :=
  ⟨[], [.number 7, .nativeFunction 0], [], [], c1Natives⟩

/-- A frame variant of `c1State` executing the single instruction
`Call 1`. -/
def c1Closure : Closure := ⟨.mk 0 (.mk [.call 1] .nil) "", []⟩

/-- Claim C1 evaluated at its failing input.  The slice handed to the host
is `stack[arg_start..]` with `arg_start = len - 1 - argc`, which contains
`argc + 1` values STARTING WITH THE CALLEE — not the top `argc` values — and
after the host returns `Number 42` the VM pops only the `argc` arguments and
discards the result, leaving the CALLEE (not the returned value) on the
stack. -/
theorem C1_native_call_bug :
    nativeArgsView c1State 1 = [.nativeFunction 0, .number 7] ∧
    (nativeArgsView c1State 1).length = 2 ∧
    c1State.callValue (.nativeFunction 0) 1 =
      some (.ok { c1State with stack := [.nativeFunction 0] }) ∧
    (∀ s2, c1State.callValue (.nativeFunction 0) 1 = some (.ok s2) →
      s2.stack ≠ [.number 42]) ∧
    step ⟨[⟨c1Closure, 0, 0⟩], [.number 7, .nativeFunction 0], [], [], c1Natives⟩ =
      .next ⟨[⟨c1Closure, 1, 0⟩], [.nativeFunction 0], [], [], c1Natives⟩ := by
  refine ⟨rfl, rfl, rfl, ?_, rfl⟩
  intro s2 h
  rw [show c1State.callValue (.nativeFunction 0) 1 =
    some (.ok { c1State with stack := [.nativeFunction 0] }) from rfl] at h
  simp only [Option.some.injEq, Except.ok.injEq] at h
  subst h
  simp

/-! ## Claim C7: assignment as an expression (confirmed) -/

/-- After a successful `globalsUpdate` the name maps to the new value. -/
theorem globalsUpdate_lookup (g : List (String × Value)) :
    ∀ (g' : List (String × Value)) (n : String) (v : Value),
      globalsUpdate g n v = some g' → globalsLookup g' n = some v := by
  induction g with
  | nil => intro g' n v h; simp [globalsUpdate] at h
  | cons kv rest ih =>
    intro g' n v h
    obtain ⟨k, w⟩ := kv
    by_cases hk : k = n
    · subst hk
      simp [globalsUpdate] at h
      subst h
      simp [globalsLookup]
    · simp [globalsUpdate, hk] at h
      obtain ⟨a, ha, hg⟩ := h
      subst hg
      simpa [globalsLookup, hk] using ih a n v ha

/-- `globalsUpdate` fails exactly on names absent from the table. -/
theorem globalsUpdate_none_iff (g : List (String × Value)) :
    ∀ (n : String) (v : Value),
      globalsUpdate g n v = none ↔ globalsLookup g n = none := by
  induction g with
  | nil => intro n v; simp [globalsUpdate, globalsLookup]
  | cons kv rest ih =>
    intro n v
    obtain ⟨k, w⟩ := kv
    by_cases hk : k = n
    · subst hk; simp [globalsUpdate, globalsLookup]
    · simp [globalsUpdate, globalsLookup, hk, ih n v]

/-- `a = b = c;` after `let a = "a"; let b = "b"; let c = "c";` — assignment
is right-associative and each `SetGlobal` leaves the assigned value on the
stack. -/
def progAssoc : StmtList := StmtList.ofList
  [ .letStmt "a" (.someE (strE "\"a\"")),
    .letStmt "b" (.someE (strE "\"b\"")),
    .letStmt "c" (.someE (strE "\"c\"")),
    .expression (.assign (identE "a") .assign
      (.assign (identE "b") .assign (identE "c"))) ]

/-- `let a = "before"; let c = (a = "var");` — the claim's `let x = (y = v);`
shape. -/
def progSyntax : StmtList := StmtList.ofList
  [ .letStmt "a" (.someE (strE "\"before\"")),
    .letStmt "c" (.someE (.assign (identE "a") .assign (strE "\"var\""))) ]

/-- Claim C7.  `SetGlobal` on a bound name overwrites the binding and leaves
the assigned value on the stack (peeked, not popped); on an absent name it
surfaces `UndefinedVariable`; a successful update really stores the value,
and failure coincides with the name being unbound.  Concretely,
`let a = "before"; let c = (a = "var");` leaves both `a` and `c` at `"var"`,
and `a = b = c;` leaves all three globals at `c`'s value. -/
theorem C7_assignment_semantics :
    (∀ (c : Closure) (ip slots : Nat) (rest : List CallFrame) (top : Value)
       (stk : List Value) (gl gl' : List (String × Value)) (ups : List Upvalue)
       (na : Nat → List Value → Except RuntimeError Value) (idx : Nat) (g : Value),
       c.function.chunk.code[ip]? = some (.setGlobal idx) →
       c.function.chunk.constants.get? idx = some g →
       globalsUpdate gl (valueToString g) top = some gl' →
       step ⟨⟨c, ip, slots⟩ :: rest, top :: stk, gl, ups, na⟩ =
         .next ⟨⟨c, ip + 1, slots⟩ :: rest, top :: stk, gl', ups, na⟩) ∧
    (∀ (c : Closure) (ip slots : Nat) (rest : List CallFrame) (top : Value)
       (stk : List Value) (gl : List (String × Value)) (ups : List Upvalue)
       (na : Nat → List Value → Except RuntimeError Value) (idx : Nat) (g : Value),
       c.function.chunk.code[ip]? = some (.setGlobal idx) →
       c.function.chunk.constants.get? idx = some g →
       globalsUpdate gl (valueToString g) top = none →
       step ⟨⟨c, ip, slots⟩ :: rest, top :: stk, gl, ups, na⟩ =
         .err (.undefinedVariable (valueToString g))
           ⟨⟨c, ip + 1, slots⟩ :: rest, top :: stk, gl, ups, na⟩) ∧
    (∀ (gl gl' : List (String × Value)) (n : String) (v : Value),
       globalsUpdate gl n v = some gl' → globalsLookup gl' n = some v) ∧
    (∀ (gl : List (String × Value)) (n : String) (v : Value),
       globalsUpdate gl n v = none ↔ globalsLookup gl n = none) ∧
    (compileAst progAssoc).1.error = none ∧
    (compileAst progAssoc).1.panicked = false ∧
    (vmNew.interpretF 50 (compileAst progAssoc).2).outcome = .ok Value.getUnit ∧
    ((vmNew.interpretF 50 (compileAst progAssoc).2).state?.map VMState.globals) =
      some [("a", .string "c"), ("b", .string "c"), ("c", .string "c")] ∧
    (compileAst progSyntax).1.error = none ∧
    (compileAst progSyntax).1.panicked = false ∧
    (vmNew.interpretF 50 (compileAst progSyntax).2).outcome = .ok Value.getUnit ∧
    ((vmNew.interpretF 50 (compileAst progSyntax).2).state?.map VMState.globals) =
      some [("a", .string "var"), ("c", .string "var")] := by
  refine ⟨?_, ?_, fun gl => globalsUpdate_lookup gl, fun gl => globalsUpdate_none_iff gl,
    rfl, rfl, rfl, rfl, rfl, rfl, rfl, rfl⟩
  · intro c ip slots rest top stk gl gl' ups na idx g hfetch hconst hupd
    simp [step, hfetch, hconst, hupd]
  · intro c ip slots rest top stk gl ups na idx g hfetch hconst hupd
    simp [step, hfetch, hconst, hupd]

/-- A closure whose chunk is the single instruction `SetGlobal` naming
`y`. -/
def c7Closure : Closure :=
  ⟨.mk 0 (.mk [.setGlobal 0] (.cons (.string "y") .nil)) "", []⟩

/-- The `SetGlobal` semantics applied at a concrete state: assigning
`"w"` to the bound global `y` updates the table and keeps `"w"` on the
stack. -/
theorem C7_witness :
    step ⟨[⟨c7Closure, 0, 0⟩], [.string "w"], [("y", .number 0)], [], emptyNatives⟩ =
      .next ⟨[⟨c7Closure, 1, 0⟩], [.string "w"], [("y", .string "w")], [], emptyNatives⟩ := by
  exact C7_assignment_semantics.1 c7Closure 0 0 [] (.string "w") []
    [("y", .number 0)] [("y", .string "w")] [] emptyNatives 0 (.string "y") rfl rfl rfl

/-! ## Claim C8: short-circuit `&&` and `||` (confirmed) -/

/-- The code shape `binary_expr` emits for `false && <rhs>`: push `false`,
`JumpIfFalse` over the `Pop` and the rhs code `E`, ending in `Return`. -/
def andChunkOf (E : List OpCode) (K : ValueList) : Chunk :=
  .mk (.ofalse :: .jumpIfFalse (E.length + 1) :: .pop :: (E ++ [.ret])) K

/-- `andChunkOf` as a zero-arity script function. -/
def andFnOf (E : List OpCode) (K : ValueList) : Func := .mk 0 (andChunkOf E K) ""

/-- The code shape `binary_expr` emits for `true || <rhs>`: push `true`,
`JumpIfFalse` over the unconditional forward `Jump`, which skips the `Pop`
and the rhs code `E`. -/
def orChunkOf (E : List OpCode) (K : ValueList) : Chunk :=
  .mk (.otrue :: .jumpIfFalse 1 :: .jump .forwards (E.length + 1) :: .pop ::
    (E ++ [.ret])) K

/-- `orChunkOf` as a zero-arity script function. -/
def orFnOf (E : List OpCode) (K : ValueList) : Func := .mk 0 (orChunkOf E K) ""

/-- The AST of `false && (1 / 0)`. -/
def falseAndDiv : Expr :=
  .binary (.constant .cfalse) .andOp
    (.binary (.constant (.number 1)) .divide (.constant (.number 0)))

/-- The AST of `true || (1 / 0)`. -/
def trueOrDiv : Expr :=
  .binary (.constant .ctrue) .orOp
    (.binary (.constant (.number 1)) .divide (.constant (.number 0)))

/-- Claim C8.  For EVERY right-operand code `E`, the `false && E` shape
finishes with `Boolean(false)` in three dispatches and the `true || E` shape
with `Boolean(true)` in four — a fuel bound independent of `E`, so the right
operand is never executed.  The compiled `false && (1/0)` is literally an
instance of that shape, and the four concrete compiled programs evaluate to
the claimed booleans, the division never raising. -/
theorem C8_short_circuit :
    (∀ (E : List OpCode) (K : ValueList),
      (runScript (andFnOf E K) 3).outcome = .ok (.boolean false)) ∧
    (∀ (E : List OpCode) (K : ValueList),
      (runScript (orFnOf E K) 4).outcome = .ok (.boolean true)) ∧
    (compileExprAst falseAndDiv).2.chunk.code =
      (andChunkOf [.constant 0, .constant 1, .divide]
        (compileExprAst falseAndDiv).2.chunk.constants).code ∧
    (compileExprAst falseAndDiv).1.error = none ∧
    (compileExprAst falseAndDiv).1.panicked = false ∧
    (compileExprAst trueOrDiv).1.error = none ∧
    (compileExprAst trueOrDiv).1.panicked = false ∧
    (vmNew.interpretF 10 (compileExprAst falseAndDiv).2).outcome =
      .ok (.boolean false) ∧
    (vmNew.interpretF 10 (compileExprAst trueOrDiv).2).outcome =
      .ok (.boolean true) ∧
    (vmNew.interpretF 10 (compileExprAst (.binary (.constant .ctrue) .andOp
      (.constant .cfalse))).2).outcome = .ok (.boolean false) ∧
    (vmNew.interpretF 10 (compileExprAst (.binary (.constant .cfalse) .orOp
      (.constant .ctrue))).2).outcome = .ok (.boolean true) := by
  refine ⟨?_, ?_, rfl, rfl, rfl, rfl, rfl, rfl, rfl, rfl, rfl⟩
  · intro E K
    have hret : ((.ofalse : OpCode) :: .jumpIfFalse (E.length + 1) :: .pop ::
        (E ++ [.ret]))[E.length + 3]? = some .ret := by
      simp only [List.getElem?_cons_succ]
      rw [List.getElem?_append_right (le_refl _)]
      simp
    have harith : 2 + (E.length + 1) = E.length + 3 := by omega
    simp [runScript, runFuel, step, andFnOf, andChunkOf, Func.chunk, Func.arity,
      Closure.function, Closure.upvalues, Chunk.code, Chunk.constants, harith,
      hret, closeUpvalues, List.mapM, List.mapM.loop, Value.getUnit,
      RunRes.outcome]
  · intro E K
    have hret : ((.otrue : OpCode) :: .jumpIfFalse 1 ::
        .jump .forwards (E.length + 1) :: .pop ::
        (E ++ [.ret]))[E.length + 4]? = some .ret := by
      simp only [List.getElem?_cons_succ]
      rw [List.getElem?_append_right (le_refl _)]
      simp
    have harith : 3 + (E.length + 1) = E.length + 4 := by omega
    simp [runScript, runFuel, step, orFnOf, orChunkOf, Func.chunk, Func.arity,
      Closure.function, Closure.upvalues, Chunk.code, Chunk.constants, harith,
      hret, closeUpvalues, List.mapM, List.mapM.loop, Value.getUnit,
      RunRes.outcome]

/-! ## Claim C10: globals survive runtime errors (confirmed) -/

/-- `let a = "v"; unknown = "w";` — a define followed by a failing
assignment to an unbound name. -/
def progErr : StmtList := StmtList.ofList
  [ .letStmt "a" (.someE (strE "\"v\"")),
    .expression (.assign (identE "unknown") .assign (strE "\"w\"")) ]

/-- Claim C10.  `interpret`'s error path clears exactly the value stack and
the frame stack, keeping the erroring state's globals; a dispatch step — so
in particular every `DefineGlobal` executed before the error — never unbinds
a bound global, and neither does a whole aborted run; concretely,
`let a = "v"; unknown = "w";` aborts with `UndefinedVariable("unknown")`
with `a = "v"` still bound, empty stack and frames, and a subsequent
`evaluate` of `a` on the returned VM sees `"v"`. -/
theorem C10_error_persistence :
    (∀ (s : VMState) (f : Func) (fuel : Nat) (s4 s5 : VMState) (e : RuntimeError),
      (interpPush s f).call ⟨f, []⟩ 0 = some (.ok s4) →
      runFuel fuel s4 = .err e s5 →
      s.interpretF fuel f = .err e { s5 with stack := [], frames := [] }) ∧
    (∀ (s s' : VMState) (k : String),
      (step s = .next s' ∨ ∃ e, step s = .err e s') →
      (globalsLookup s.globals k).isSome = true →
      (globalsLookup s'.globals k).isSome = true) ∧
    (∀ (fuel : Nat) (s s' : VMState) (e : RuntimeError) (k : String),
      runFuel fuel s = .err e s' →
      (globalsLookup s.globals k).isSome = true →
      (globalsLookup s'.globals k).isSome = true) ∧
    (compileAst progErr).1.error = none ∧
    (compileAst progErr).1.panicked = false ∧
    (vmNew.interpretF 40 (compileAst progErr).2).outcome =
      .err (.undefinedVariable "unknown") ∧
    ((vmNew.interpretF 40 (compileAst progErr).2).state?.map VMState.globals) =
      some [("a", .string "v")] ∧
    ((vmNew.interpretF 40 (compileAst progErr).2).state?.map VMState.stack) =
      some [] ∧
    ((vmNew.interpretF 40 (compileAst progErr).2).state?.map VMState.frames) =
      some [] ∧
    ((vmNew.interpretF 40 (compileAst progErr).2).state?.map
      (fun st => (st.interpretF 20 (compileExprAst (identE "a")).2).outcome)) =
      some (.ok (.string "v")) := by
  refine ⟨?_, fun s s' k h hb => step_globals_mono h hb,
    fun fuel s s' e k h hb => runFuel_err_globals_mono h hb,
    rfl, rfl, rfl, rfl, rfl, rfl, rfl⟩
  intro s f fuel s4 s5 e hcall hrun
  simp [VMState.interpretF, hcall, hrun]

/-- A closure assigning to the unbound global `missing` over a table where
`a` is bound. -/
def c10Closure : Closure :=
  ⟨.mk 0 (.mk [.setGlobal 0] (.cons (.string "missing") .nil)) "", []⟩

/-- The state about to execute `c10Closure`'s `SetGlobal`. -/
def c10Before : VMState :=
  ⟨[⟨c10Closure, 0, 0⟩], [.number 1], [("a", .number 5)], [], emptyNatives⟩

/-- The state the `UndefinedVariable` error surfaces with. -/
def c10After : VMState :=
  ⟨[⟨c10Closure, 1, 0⟩], [.number 1], [("a", .number 5)], [], emptyNatives⟩

/-- The erring-step monotonicity applied at a concrete input: the failing
assignment to `missing` leaves `a` bound. -/
theorem C10_witness : (globalsLookup c10After.globals "a").isSome = true :=
  C10_error_persistence.2.1 c10Before c10After "a"
    (.inr ⟨.undefinedVariable "missing", rfl⟩) (by decide)
